import Mathlib

/-!
# Verification of the yuzu generic texture cache engine

Shallow embedding of `src/video_core/texture_cache/texture_cache.h`
(`VideoCommon::TextureCache<TSurface, TView>`).

Modelling conventions:

* Machine integers (`u32`, `u64`, `CacheAddr`, `GPUVAddr`, `std::size_t`) are
  modelled as `Nat`; the cache performs no overflowing arithmetic on them
  (addresses, sizes, page indices, ticks).
* `TSurface` is a `std::shared_ptr` to a mutable surface object; we model the
  heap of surface objects as an association list `store : List (Nat × SurfaceData)`
  indexed by surface ids, and `TSurface` values as ids (`Nat`).  Pointer
  equality on shared pointers becomes id equality.
* `std::unordered_map` becomes an association list with lookup of the first
  matching key, insert-or-replace, and erase-of-first-match; the code never
  iterates over an `unordered_map`, so bucket iteration order is irrelevant.
* Backend virtual operations (`ImageCopy`, `BufferCopy`, `LoadBuffer`, ...)
  and the rasterizer callback only have observable effects outside the cache;
  they are recorded as an event trace.
* The headers `video_core/surface.h`, `texture_cache/surface_base.h`,
  `texture_cache/surface_params.h`, `core/settings.h` and
  `video_core/memory_manager.h` are not part of the provided sources; the
  pure layout mathematics they implement (`MatchesTopology`,
  `MatchesStructure`, `EmplaceView`, `GetLayerMipmap`, `GetMipmapSize`,
  `BreakDown`, size formulas, address translation) is kept abstract as an
  environment of oracle functions (`Env`), and the enumerations are modelled
  from the spec with the constructors the cache code mentions.  All control
  flow proved about below is the control flow of `texture_cache.h` itself.
-/

namespace TexCache

/-- Modelled from the spec: `VideoCore::Surface::PixelFormat`
(`video_core/surface.h` is not in the provided sources).  Representative
constructors: the three declared sibling pairs of the cache constructor,
some ordinary color formats named elsewhere in the repository, a further
depth format, and the `Invalid` sentinel used as the fill value of the
siblings table. -/
inductive PixelFormat where
  | ABGR8U
  | B5G6R5U
  | R8U
  | RGBA16F
  | R16U
  | R32F
  | RG32F
  | Z16
  | Z32F
  | Z32FS8
  | Z24S8
  | Invalid
  deriving DecidableEq, Fintype, Repr

/-- Modelled from the spec: `VideoCore::Surface::SurfaceTarget`
(`video_core/surface.h` is not in the provided sources). -/
inductive SurfaceTarget where
  | Texture1D
  | Texture2D
  | Texture3D
  | Texture1DArray
  | Texture2DArray
  | TextureCubemap
  | TextureCubeArray
  deriving DecidableEq, Fintype, Repr

/-- Modelled from the spec: `VideoCommon::MatchTopologyResult`
(`texture_cache/surface_base.h` is not in the provided sources; the cache
code uses the constructors `FullMatch` and `CompressUnmatch`, plus a
non-matching outcome). -/
inductive MatchTopologyResult where
  | FullMatch
  | CompressUnmatch
  | NoneTopology
  deriving DecidableEq, Fintype, Repr

/-- Modelled from the spec: `VideoCommon::MatchStructureResult`
(`texture_cache/surface_base.h` is not in the provided sources; the cache
code uses `FullMatch`, `None`, and a partial-match outcome). -/
inductive MatchStructureResult where
  | FullMatch
  | SemiMatch
  | NoneStructure
  deriving DecidableEq, Fintype, Repr

/-- `TextureCache::RecycleStrategy` (texture_cache.h, lines 327-331). -/
inductive RecycleStrategy where
  | Ignore
  | Flush
  | BufferCopy
  deriving DecidableEq, Fintype, Repr

/-- `VideoCommon::SurfaceParams`, restricted to the fields the cache engine
itself reads or writes (`texture_cache/surface_params.h` is not in the
provided sources; field names follow the uses in texture_cache.h).
`component_type` and `type` (the byte-layout class) are kept abstract as
naturals. -/
structure SurfaceParams where
  is_tiled : Bool
  block_width : Nat
  block_height : Nat
  block_depth : Nat
  width : Nat
  height : Nat
  depth : Nat
  pixel_format : PixelFormat
  component_type : Nat
  type : Nat
  num_levels : Nat
  is_layered : Bool
  target : SurfaceTarget
  deriving DecidableEq, Repr

/-- The siblings table built by the `TextureCache` constructor
(texture_cache.h, lines 247-254): every entry is first filled with
`PixelFormat::Invalid`, then `make_siblings` installs the three pairs
`(Z16, R16U)`, `(Z32F, R32F)`, `(Z32FS8, RG32F)` in both directions.
The table is a plain function here, which also models that nothing in the
class ever writes to it after construction. -/
def siblings_table : PixelFormat → PixelFormat
  | .Z16 => .R16U
  | .R16U => .Z16
  | .Z32F => .R32F
  | .R32F => .Z32F
  | .Z32FS8 => .RG32F
  | .RG32F => .Z32FS8
  | _ => .Invalid

/-- `TextureCache::GetSiblingFormat` (texture_cache.h, lines 767-769). -/
def GetSiblingFormat (format : PixelFormat) : PixelFormat :=
  siblings_table format

/-- The 3D-texture test of `PickStrategy` (texture_cache.h, lines 347, 352):
`block_depth > 1 || target == SurfaceTarget::Texture3D`. -/
def is3DDecision (p : SurfaceParams) : Bool :=
  decide (1 < p.block_depth) || decide (p.target = SurfaceTarget.Texture3D)

/-- `TextureCache::PickStrategy` (texture_cache.h, lines 341-364), as a
function of the accuracy setting (`Settings::values.use_accurate_gpu_emulation`)
and of the `SurfaceParams` of the overlaps (the loop reads nothing else of
them). -/
def PickStrategy (accurate : Bool) (overlaps : List SurfaceParams)
    (params : SurfaceParams) (untopological : MatchTopologyResult) :
    RecycleStrategy :=
  if accurate then .Flush
  else if is3DDecision params then .Flush
  else if overlaps.any is3DDecision then .Flush
  else if untopological = .CompressUnmatch then .Flush
  else if untopological = .FullMatch ∧ ¬ params.is_tiled then .Flush
  else .Ignore

/-- The strategy-selection rule as claim C3 words it: clause (d) additionally
requires that the overlaps were tiled. -/
def pickStrategyClaimC3 (accurate : Bool) (overlaps : List SurfaceParams)
    (params : SurfaceParams) (untopological : MatchTopologyResult) :
    RecycleStrategy :=
  if accurate then .Flush
  else if is3DDecision params then .Flush
  else if overlaps.any is3DDecision then .Flush
  else if untopological = .CompressUnmatch then .Flush
  else if untopological = .FullMatch ∧ ¬ params.is_tiled ∧
          overlaps.all (·.is_tiled) then .Flush
  else .Ignore

/-! ## Association-list maps

`std::unordered_map` is modelled as an association list: the cache never
iterates over a whole map, so only key lookup, insert-or-replace
(`operator[] = v` / `push_back` on `operator[]`) and key erasure are needed.
Absent buckets and default-constructed empty buckets are identified. -/

/-- First-match key lookup (`map.find(k)`). -/
def lookupA {κ α : Type} [DecidableEq κ] : List (κ × α) → κ → Option α
  | [], _ => none
  | (k', v) :: rest, k => if k' = k then some v else lookupA rest k

/-- Insert-or-replace (`map[k] = v`). -/
def insertA {κ α : Type} [DecidableEq κ] : List (κ × α) → κ → α → List (κ × α)
  | [], k, v => [(k, v)]
  | (k', v') :: rest, k, v =>
    if k' = k then (k, v) :: rest else (k', v') :: insertA rest k v

/-- Erase by key (`map.erase(k)`), first occurrence. -/
def eraseA {κ α : Type} [DecidableEq κ] : List (κ × α) → κ → List (κ × α)
  | [], _ => []
  | (k', v') :: rest, k => if k' = k then rest else (k', v') :: eraseA rest k

/-- In-place update of the value bound to `k`, if any. -/
def updateA {κ α : Type} [DecidableEq κ] : List (κ × α) → κ → (α → α) → List (κ × α)
  | [], _, _ => []
  | (k', v') :: rest, k, f =>
    if k' = k then (k, f v') :: rest else (k', v') :: updateA rest k f

/-- Erase the first occurrence of an element from a vector
(`vec.erase(std::find(vec.begin(), vec.end(), x))`; the element is present
whenever the code reaches this call). -/
def eraseFirst : List Nat → Nat → List Nat
  | [], _ => []
  | x :: xs, y => if x = y then xs else x :: eraseFirst xs y

/-! ## Surfaces, views, events -/

/-- The mutable per-surface state the cache engine reads and writes through
the `SurfaceBaseImpl` interface (`surface_base.h` is not in the provided
sources; the fields and their meaning follow the accessors used in
texture_cache.h and the data model of the spec). -/
structure SurfaceData where
  gpu_addr : Nat
  cpu_addr : Nat
  cache_addr : Nat
  size_in_bytes : Nat
  params : SurfaceParams
  registered : Bool
  picked : Bool
  modified : Bool
  modification_tick : Nat
  is_render_target : Bool
  is_protected : Bool
  continuous : Bool
  deriving DecidableEq, Repr

/-- `GetCacheAddrEnd`: one past the last cache address backed by the
surface. -/
def SurfaceData.cacheAddrEnd (d : SurfaceData) : Nat :=
  d.cache_addr + d.size_in_bytes

/-- Modelled from the spec: `SurfaceBaseImpl::Overlaps` — the surface's
cache-address range intersects `[a, e)`. -/
def SurfaceData.overlapsRange (d : SurfaceData) (a e : Nat) : Bool :=
  decide (d.cache_addr < e) && decide (a < d.cacheAddrEnd)

/-- Modelled from the spec: `SurfaceBaseImpl::IsInside(other_start,
other_end)` — the candidate GPU-address range is fully contained in the
surface's GPU-address range. -/
def SurfaceData.isInside (d : SurfaceData) (os oe : Nat) : Bool :=
  decide (d.gpu_addr ≤ os) && decide (oe ≤ d.gpu_addr + d.size_in_bytes)

/-- How a returned `TView` was produced from its surface. -/
inductive ViewTag where
  | mainView
  | overview
  | emplaced
  deriving DecidableEq, Repr

/-- A `TView`: a non-owning reference to (a sub-region of) the surface with
id `sid`. -/
structure View where
  sid : Nat
  tag : ViewTag
  deriving DecidableEq, Repr

/-- `CopyParams` (`texture_cache/copy_params.h` is not in the provided
sources; fields follow the 11-argument constructor call in
`TryReconstructSurface`). -/
structure CopyParams where
  source_x : Nat
  source_y : Nat
  source_z : Nat
  dest_x : Nat
  dest_y : Nat
  dest_z : Nat
  source_level : Nat
  dest_level : Nat
  width : Nat
  height : Nat
  depth : Nat
  deriving DecidableEq, Repr

/-- Observable effects outside the cache's own data structures: backend
virtual calls and the rasterizer page-count callback. -/
inductive Event where
  | load (sid : Nat)
  | flushed (sid : Nat)
  | imageCopy (src dst : Nat) (cp : CopyParams)
  | bufferCopy (src dst : Nat)
  | pagesAdd (cpu_addr size : Nat)
  | pagesRemove (cpu_addr size : Nat)
  deriving DecidableEq, Repr

/-- External collaborators and configuration: GPU memory-manager address
translation, the accuracy setting, and the pure layout mathematics of
`surface_base.h` / `surface_params.h` (files not in the provided sources),
kept abstract.  `gpuToCache` composes `ToCacheAddr` with
`MemoryManager::GetPointer`; the value `0` is the null pointer. -/
structure Env where
  accurate : Bool
  gpuToCache : Nat → Nat
  gpuToCpu : Nat → Option Nat
  isContinuous : Nat → Nat → Bool
  guestSize : SurfaceParams → Nat
  matchesTopology : SurfaceParams → SurfaceParams → MatchTopologyResult
  matchesStructure : SurfaceParams → SurfaceParams → MatchStructureResult
  matchTarget : SurfaceParams → SurfaceTarget → Bool
  matchFormat : SurfaceParams → PixelFormat → Bool
  emplaceView : SurfaceParams → Nat → SurfaceParams → Nat → Nat → Bool
  matchesSubTexture : SurfaceParams → SurfaceParams → Nat → Bool
  getLayerMipmap : SurfaceParams → Nat → Nat → Option (Nat × Nat)
  mipmapSize : SurfaceParams → Nat → Nat
  breakDown : SurfaceParams → SurfaceParams → List CopyParams
  intersectWidth : SurfaceParams → SurfaceParams → Nat → Nat → Nat
  intersectHeight : SurfaceParams → SurfaceParams → Nat → Nat → Nat
  convertWidth : Nat → PixelFormat → PixelFormat → Nat
  convertHeight : Nat → PixelFormat → PixelFormat → Nat

/-! ## The cache state -/

/-- The mutable state of a `TextureCache` instance, together with the heap
of surface objects (`surfaces`, keyed by id — `TSurface` shared pointers
become ids). -/
structure CacheState where
  surfaces : List (Nat × SurfaceData)
  next_id : Nat
  ticks : Nat
  guard_render_targets : Bool
  guard_samplers : Bool
  registry : List (Nat × List Nat)
  l1_cache : List (Nat × Nat)
  surface_reserve : List (SurfaceParams × List Nat)
  sampled_textures : List Nat
  deriving DecidableEq, Repr

/-- Dereference a surface id. -/
def getSurf (s : CacheState) (sid : Nat) : Option SurfaceData :=
  lookupA s.surfaces sid

/-- Mutate the surface object `sid` points to. -/
def setSurf (s : CacheState) (sid : Nat) (f : SurfaceData → SurfaceData) :
    CacheState :=
  { s with surfaces := updateA s.surfaces sid f }

/-- `surface->GetSurfaceParams()`, with a dummy default for dangling ids
(never reached from well-formed states). -/
def paramsOf (s : CacheState) (sid : Nat) : SurfaceParams :=
  ((getSurf s sid).map (·.params)).getD
    ⟨false, 0, 0, 0, 0, 0, 0, .Invalid, 0, 0, 0, false, .Texture2D⟩

/-- `surface->GetGpuAddr()`, with a dummy default for dangling ids. -/
def gpuAddrOf (s : CacheState) (sid : Nat) : Nat :=
  ((getSurf s sid).map (·.gpu_addr)).getD 0

/-- `surface->GetModificationTick()`, with a dummy default for dangling
ids. -/
def tickOf (s : CacheState) (sid : Nat) : Nat :=
  ((getSurf s sid).map (·.modification_tick)).getD 0

/-- `TextureCache::Tick` (texture_cache.h, lines 233-235): `++ticks`. -/
def tickOp (s : CacheState) : CacheState × Nat :=
  ({ s with ticks := s.ticks + 1 }, s.ticks + 1)

/-- Modelled from the spec: `SurfaceBaseImpl::MarkAsModified(b, tick)` sets
the modified flag and stamps the modification tick. -/
def markAsModified (s : CacheState) (sid : Nat) (b : Bool) (t : Nat) :
    CacheState :=
  setSurf s sid fun d => { d with modified := b, modification_tick := t }

/-- Registry page size: 1 MiB buckets (texture_cache.h, line 792). -/
def registry_page_bits : Nat := 20

/-- Bucket index of a cache address. -/
def pageOf (a : Nat) : Nat := a >>> registry_page_bits

/-- The pages visited by `while (start <= end)`. -/
def pageList (startp endp : Nat) : List Nat :=
  List.range' startp (endp + 1 - startp)

/-- `TextureCache::RegisterInnerCache` (texture_cache.h, lines 703-712). -/
def registerInnerCache (s : CacheState) (sid : Nat) : CacheState :=
  match getSurf s sid with
  | none => s
  | some d =>
    let pages := pageList (pageOf d.cache_addr) (pageOf (d.cacheAddrEnd - 1))
    { s with
      l1_cache := insertA s.l1_cache d.cache_addr sid
      registry := pages.foldl
        (fun r p => insertA r p ((lookupA r p).getD [] ++ [sid])) s.registry }

/-- `TextureCache::UnregisterInnerCache` (texture_cache.h, lines 714-724). -/
def unregisterInnerCache (s : CacheState) (sid : Nat) : CacheState :=
  match getSurf s sid with
  | none => s
  | some d =>
    let pages := pageList (pageOf d.cache_addr) (pageOf (d.cacheAddrEnd - 1))
    { s with
      l1_cache := eraseA s.l1_cache d.cache_addr
      registry := pages.foldl
        (fun r p => insertA r p (eraseFirst ((lookupA r p).getD []) sid)) s.registry }

/-- `TextureCache::ReserveSurface` (texture_cache.h, lines 750-752):
`surface_reserve[params].push_back(surface)`. -/
def reserveSurface (s : CacheState) (p : SurfaceParams) (sid : Nat) :
    CacheState :=
  { s with surface_reserve :=
      insertA s.surface_reserve p ((lookupA s.surface_reserve p).getD [] ++ [sid]) }

/-- `TextureCache::TryGetReservedSurface` (texture_cache.h, lines 754-765):
first reserved surface under `params` that is not currently registered. -/
def tryGetReservedSurface (s : CacheState) (p : SurfaceParams) : Option Nat :=
  match lookupA s.surface_reserve p with
  | none => none
  | some ids =>
    ids.find? fun sid =>
      match getSurf s sid with
      | some d => !d.registered
      | none => false

/-- `TextureCache::Register` (texture_cache.h, lines 273-291).  If either
translation of the surface's GPU address fails, the function logs and
returns without registering. -/
def register (env : Env) (s : CacheState) (sid : Nat) :
    CacheState × List Event :=
  match getSurf s sid with
  | none => (s, [])
  | some d =>
    let cache_ptr := env.gpuToCache d.gpu_addr
    match env.gpuToCpu d.gpu_addr with
    | none => (s, [])
    | some cpu =>
      if cache_ptr = 0 then (s, [])
      else
        let s := setSurf s sid fun d' =>
          { d' with
            continuous := env.isContinuous d.gpu_addr d.size_in_bytes
            cache_addr := cache_ptr
            cpu_addr := cpu }
        let s := registerInnerCache s sid
        let s := setSurf s sid fun d' => { d' with registered := true }
        (s, [Event.pagesAdd cpu d.size_in_bytes])

/-- `TextureCache::Unregister` (texture_cache.h, lines 293-305): a no-op
when the render-target guard is up and the surface is protected. -/
def unregister (s : CacheState) (sid : Nat) : CacheState × List Event :=
  match getSurf s sid with
  | none => (s, [])
  | some d =>
    if s.guard_render_targets && d.is_protected then (s, [])
    else
      let s1 := unregisterInnerCache s sid
      let s2 := setSurf s1 sid fun d' => { d' with registered := false }
      let s3 := reserveSurface s2 d.params sid
      (s3, [Event.pagesRemove d.cpu_addr d.size_in_bytes])

/-- The surface object the backend's `CreateSurface(gpu_addr, params)`
hands back: fresh, unregistered, clean. -/
def freshSurface (env : Env) (gpu_addr : Nat) (p : SurfaceParams) :
    SurfaceData :=
  { gpu_addr := gpu_addr
    cpu_addr := 0
    cache_addr := 0
    size_in_bytes := env.guestSize p
    params := p
    registered := false
    picked := false
    modified := false
    modification_tick := 0
    is_render_target := false
    is_protected := false
    continuous := false }

/-- `TextureCache::GetUncachedSurface` (texture_cache.h, lines 307-315):
recycle a reserved surface (resetting its GPU address) or have the backend
create a fresh one. -/
def getUncachedSurface (env : Env) (s : CacheState) (gpu_addr : Nat)
    (p : SurfaceParams) : CacheState × Nat :=
  match tryGetReservedSurface s p with
  | some sid => (setSurf s sid fun d => { d with gpu_addr := gpu_addr }, sid)
  | none =>
    let sid := s.next_id
    ({ s with surfaces := s.surfaces ++ [(sid, freshSurface env gpu_addr p)],
              next_id := sid + 1 }, sid)

/-- One registry bucket of the mark-and-collect scan of
`GetSurfacesInRegion` (texture_cache.h, lines 734-743): unpicked
overlapping surfaces are marked picked and appended. -/
def pickPass (a e : Nat) :
    CacheState → List Nat → List Nat → CacheState × List Nat
  | s, [], acc => (s, acc)
  | s, sid :: rest, acc =>
    match getSurf s sid with
    | none => pickPass a e s rest acc
    | some d =>
      if !d.picked && d.overlapsRange a e then
        pickPass a e (setSurf s sid fun d' => { d' with picked := true }) rest
          (acc ++ [sid])
      else pickPass a e s rest acc

/-- The page loop of `GetSurfacesInRegion`. -/
def scanPages (a e : Nat) :
    CacheState → List Nat → List Nat → CacheState × List Nat
  | s, [], acc => (s, acc)
  | s, page :: rest, acc =>
    let bucket := (lookupA s.registry page).getD []
    let (s', acc') := pickPass a e s bucket acc
    scanPages a e s' rest acc'

/-- `TextureCache::GetSurfacesInRegion` (texture_cache.h, lines 726-748):
two-phase mark/collect/unmark scan of the registry buckets. -/
def getSurfacesInRegion (s : CacheState) (cache_addr size : Nat) :
    CacheState × List Nat :=
  if size = 0 then (s, [])
  else
    let cache_addr_end := cache_addr + size
    let (s', ids) := scanPages cache_addr cache_addr_end s
      (pageList (pageOf cache_addr) (pageOf (cache_addr_end - 1))) []
    (ids.foldl (fun t sid => setSurf t sid fun d => { d with picked := false }) s',
     ids)

/-- `TextureCache::LoadSurface` (texture_cache.h, lines 686-691): staging
upload from guest memory, then clear the modified flag. -/
def loadSurface (s : CacheState) (sid : Nat) : CacheState × List Event :=
  let (s1, t) := tickOp s
  (markAsModified s1 sid false t, [Event.load sid])

/-- `TextureCache::FlushSurface` (texture_cache.h, lines 693-701): a no-op
unless the surface is modified; otherwise download and write back, then
clear the modified flag. -/
def flushSurface (s : CacheState) (sid : Nat) : CacheState × List Event :=
  match getSurf s sid with
  | none => (s, [])
  | some d =>
    if !d.modified then (s, [])
    else
      let (s1, t) := tickOp s
      (markAsModified s1 sid false t, [Event.flushed sid])

/-- `std::sort` by `GetModificationTick()` ascending (a sorted permutation;
the comparator reads the surface store, which the sort itself does not
mutate). -/
def sortByTick (s : CacheState) (ids : List Nat) : List Nat :=
  ids.mergeSort fun a b => tickOf s a ≤ tickOf s b

/-- The `Unregister` loop over a list of surfaces, with its event trace. -/
def unregisterAll (s : CacheState) (ids : List Nat) :
    CacheState × List Event :=
  ids.foldl
    (fun acc sid =>
      let (s', e) := unregister acc.1 sid
      (s', acc.2 ++ e))
    (s, [])

/-- The `FlushSurface` loop over a list of surfaces, with its event
trace. -/
def flushAll (s : CacheState) (ids : List Nat) : CacheState × List Event :=
  ids.foldl
    (fun acc sid =>
      let (s', e) := flushSurface acc.1 sid
      (s', acc.2 ++ e))
    (s, [])

/-- `TextureCache::FlushRegion` (texture_cache.h, lines 77-90). -/
def flushRegion (s : CacheState) (addr size : Nat) :
    CacheState × List Event :=
  let (s1, ids) := getSurfacesInRegion s addr size
  if ids.isEmpty then (s1, [])
  else flushAll s1 (sortByTick s1 ids)

/-- `TextureCache::InvalidateRegion` (texture_cache.h, lines 57-63). -/
def invalidateRegion (s : CacheState) (addr size : Nat) :
    CacheState × List Event :=
  let (s1, ids) := getSurfacesInRegion s addr size
  unregisterAll s1 ids

/-- `TextureCache::InitializeSurface` (texture_cache.h, lines 676-684). -/
def initializeSurface (env : Env) (s : CacheState) (gpu_addr : Nat)
    (p : SurfaceParams) (preserve_contents : Bool) :
    CacheState × List Event × (Nat × View) :=
  let (s1, sid) := getUncachedSurface env s gpu_addr p
  let (s2, ev1) := register env s1 sid
  if preserve_contents then
    let (s3, ev2) := loadSurface s2 sid
    (s3, ev1 ++ ev2, (sid, ⟨sid, .mainView⟩))
  else (s2, ev1, (sid, ⟨sid, .mainView⟩))

/-- `TextureCache::RecycleSurface` (texture_cache.h, lines 378-410):
unregister every overlap, then dispatch on `PickStrategy`.  Note
`do_load = preserve_contents && Settings::values.use_accurate_gpu_emulation`
(line 382) is what the `Ignore` branch passes to `InitializeSurface`. -/
def recycleSurface (env : Env) (s : CacheState) (overlaps : List Nat)
    (p : SurfaceParams) (gpu_addr : Nat) (preserve_contents : Bool)
    (untopological : MatchTopologyResult) :
    CacheState × List Event × (Nat × View) :=
  let do_load := preserve_contents && env.accurate
  let (s1, ev1) := unregisterAll s overlaps
  match PickStrategy env.accurate (overlaps.map (paramsOf s1)) p untopological with
  | .Ignore =>
    let (s2, ev2, r) := initializeSurface env s1 gpu_addr p do_load
    (s2, ev1 ++ ev2, r)
  | .Flush =>
    let (s2, ev2) := flushAll s1 (sortByTick s1 overlaps)
    let (s3, ev3, r) := initializeSurface env s2 gpu_addr p preserve_contents
    (s3, ev1 ++ ev2 ++ ev3, r)
  | .BufferCopy =>
    let (s2, nsid) := getUncachedSurface env s1 gpu_addr p
    (s2, ev1 ++ [Event.bufferCopy (overlaps.headD 0) nsid],
     (nsid, ⟨nsid, .mainView⟩))

/-- `TextureCache::RebuildSurface` (texture_cache.h, lines 418-447). -/
def rebuildSurface (env : Env) (s : CacheState) (cur : Nat)
    (p : SurfaceParams) (is_render : Bool) :
    CacheState × List Event × (Nat × View) :=
  match getSurf s cur with
  | none => (s, [], (cur, ⟨cur, .mainView⟩))
  | some d =>
    let gpu_addr := d.gpu_addr
    let cr_params := d.params
    let (s1, nsid) :=
      if cr_params.pixel_format ≠ p.pixel_format ∧ is_render = false ∧
         GetSiblingFormat cr_params.pixel_format = p.pixel_format then
        getUncachedSurface env s gpu_addr
          { p with
            pixel_format := cr_params.pixel_format
            component_type := cr_params.component_type
            type := cr_params.type }
      else getUncachedSurface env s gpu_addr p
    let final_params := paramsOf s1 nsid
    let ev_copy :=
      if cr_params.type ≠ final_params.type ∨
         cr_params.component_type ≠ final_params.component_type then
        [Event.bufferCopy cur nsid]
      else (env.breakDown cr_params final_params).map (Event.imageCopy cur nsid)
    let (s2, ev_unreg) := unregister s1 cur
    let (s3, ev_reg) := register env s2 nsid
    let modB := ((getSurf s3 cur).map (·.modified)).getD false
    let (s4, t) := tickOp s3
    let s5 := markAsModified s4 nsid modB t
    (s5, ev_copy ++ ev_unreg ++ ev_reg, (nsid, ⟨nsid, .mainView⟩))

/-- `TextureCache::ManageStructuralMatch` (texture_cache.h, lines 457-474). -/
def manageStructuralMatch (env : Env) (s : CacheState) (cur : Nat)
    (p : SurfaceParams) (is_render : Bool) :
    CacheState × List Event × (Nat × View) :=
  match getSurf s cur with
  | none => (s, [], (cur, ⟨cur, .mainView⟩))
  | some d =>
    let is_mirage := !(env.matchFormat d.params p.pixel_format)
    let matches_target := env.matchTarget d.params p.target
    let match_check : CacheState × List Event × (Nat × View) :=
      if matches_target then (s, [], (cur, ⟨cur, .mainView⟩))
      else (s, [], (cur, ⟨cur, .overview⟩))
    if is_mirage = false then match_check
    else if is_render = false ∧
            GetSiblingFormat d.params.pixel_format = p.pixel_format then
      match_check
    else rebuildSurface env s cur p is_render

/-- The donor loop of `TryReconstructSurface` (texture_cache.h, lines
494-516).  The outcome `none` is the early `return {}` for layered or
multi-level donors; otherwise the accumulated modified-flag disjunction and
the count of donors that passed both slot tests are returned.  State changes
and issued `ImageCopy` calls up to an early return persist. -/
def reconstructLoop (env : Env) (np : SurfaceParams) (ng : Nat) (nsid : Nat) :
    List Nat → CacheState → List Event → Bool → Nat →
    CacheState × List Event × Option (Bool × Nat)
  | [], s, ev, modified, passed => (s, ev, some (modified, passed))
  | sid :: rest, s, ev, modified, passed =>
    match getSurf s sid with
    | none => reconstructLoop env np ng nsid rest s ev modified passed
    | some d =>
      if d.params.is_layered = true ∨ 1 < d.params.num_levels then (s, ev, none)
      else
        let candidate_size := d.size_in_bytes
        match env.getLayerMipmap np ng d.gpu_addr with
        | none => reconstructLoop env np ng nsid rest s ev modified passed
        | some (layer, mipmap) =>
          if env.mipmapSize np mipmap ≠ candidate_size then
            reconstructLoop env np ng nsid rest s ev modified passed
          else
            let width := env.intersectWidth d.params np 0 mipmap
            let height := env.intersectHeight d.params np 0 mipmap
            let cp : CopyParams := ⟨0, 0, 0, 0, 0, layer, 0, mipmap, width, height, 1⟩
            reconstructLoop env np ng nsid rest s
              (ev ++ [Event.imageCopy sid nsid cp]) (modified || d.modified)
              (passed + 1)

/-- The post-loop assembly of `TryReconstructSurface` (texture_cache.h, lines
517-528): reject when the loop bailed, when zero donors passed, or — in
accurate mode — when not every overlap passed; otherwise unregister the
overlaps, bump the tick, mark the new surface modified and register it. -/
def reconstructAssemble (env : Env) (nsid : Nat) (overlaps : List Nat)
    (r : CacheState × List Event × Option (Bool × Nat)) :
    CacheState × List Event × Option (Nat × View) :=
  match r with
  | (s2, ev, none) => (s2, ev, none)
  | (s2, ev, some (modified, passed)) =>
    if passed = 0 then (s2, ev, none)
    else if env.accurate = true ∧ passed ≠ overlaps.length then (s2, ev, none)
    else
      let (s3, ev2) := unregisterAll s2 overlaps
      let (s4, t) := tickOp s3
      let s5 := markAsModified s4 nsid modified t
      let (s6, ev3) := register env s5 nsid
      (s6, ev ++ ev2 ++ ev3, some (nsid, ⟨nsid, .mainView⟩))

/-- `TextureCache::TryReconstructSurface` (texture_cache.h, lines 485-529). -/
def tryReconstructSurface (env : Env) (s : CacheState) (overlaps : List Nat)
    (p : SurfaceParams) (gpu_addr : Nat) :
    CacheState × List Event × Option (Nat × View) :=
  if p.target = SurfaceTarget.Texture3D then (s, [], none)
  else
    let (s1, nsid) := getUncachedSurface env s gpu_addr p
    let np := paramsOf s1 nsid
    let ng := gpuAddrOf s1 nsid
    reconstructAssemble env nsid overlaps
      (reconstructLoop env np ng nsid overlaps s1 [] false 0)

/-- The single-overlap branch of step 3 of `GetSurface` (texture_cache.h,
lines 609-660). -/
def getSurfaceSingle (env : Env) (s1 : CacheState)
    (gpu_addr candidate_size : Nat) (cur : Nat) (p : SurfaceParams)
    (preserve_contents is_render : Bool) :
    CacheState × List Event × (Nat × View) :=
  match getSurf s1 cur with
  | none => recycleSurface env s1 [cur] p gpu_addr preserve_contents .FullMatch
  | some d =>
    if d.isInside gpu_addr (gpu_addr + candidate_size) = false then
      if d.gpu_addr = gpu_addr then
        let (s2, ev, r?) := tryReconstructSurface env s1 [cur] p gpu_addr
        match r? with
        | some r => (s2, ev, r)
        | none =>
          let (s3, ev2, r) :=
            recycleSurface env s2 [cur] p gpu_addr preserve_contents .FullMatch
          (s3, ev ++ ev2, r)
      else recycleSurface env s1 [cur] p gpu_addr preserve_contents .FullMatch
    else if env.emplaceView d.params d.gpu_addr p gpu_addr candidate_size then
      if env.matchFormat d.params p.pixel_format = false then
        -- mirage: rebuild under the new pixel format, then re-emplace
        let wh := env.convertWidth d.params.width d.params.pixel_format p.pixel_format
        let hh := env.convertHeight d.params.height d.params.pixel_format p.pixel_format
        let new_params :=
          { d.params with width := wh, height := hh, pixel_format := p.pixel_format }
        let (s2, ev, pr) := rebuildSurface env s1 cur new_params is_render
        if env.emplaceView (paramsOf s2 pr.1) (gpuAddrOf s2 pr.1) p gpu_addr
            candidate_size then
          (s2, ev, (pr.1, ⟨pr.1, .emplaced⟩))
        else
          let (s3, ev2, r) :=
            recycleSurface env s2 [cur] p gpu_addr preserve_contents .FullMatch
          (s3, ev ++ ev2, r)
      else (s1, [], (cur, ⟨cur, .emplaced⟩))
    else if env.accurate then
      recycleSurface env s1 [cur] p gpu_addr preserve_contents .FullMatch
    else if env.matchesSubTexture d.params p gpu_addr then
      rebuildSurface env s1 cur p is_render
    else recycleSurface env s1 [cur] p gpu_addr preserve_contents .FullMatch

/-- Steps 2 and 3 of `GetSurface` (texture_cache.h, lines 586-673): overlap
scan, topology gate, and the one-versus-many overlap split. -/
def getSurfaceStep2 (env : Env) (s : CacheState) (gpu_addr cache_addr : Nat)
    (p : SurfaceParams) (preserve_contents is_render : Bool) :
    CacheState × List Event × (Nat × View) :=
  let candidate_size := env.guestSize p
  let (s1, overlaps) := getSurfacesInRegion s cache_addr candidate_size
  match overlaps with
  | [] => initializeSurface env s1 gpu_addr p preserve_contents
  | _ =>
    match overlaps.find?
        (fun sid => env.matchesTopology (paramsOf s1 sid) p ≠ .FullMatch) with
    | some bad =>
      recycleSurface env s1 overlaps p gpu_addr preserve_contents
        (env.matchesTopology (paramsOf s1 bad) p)
    | none =>
      match overlaps with
      | [cur] =>
        getSurfaceSingle env s1 gpu_addr candidate_size cur p
          preserve_contents is_render
      | _ =>
        let (s2, ev, r?) := tryReconstructSurface env s1 overlaps p gpu_addr
        match r? with
        | some r => (s2, ev, r)
        | none =>
          let (s3, ev2, r) :=
            recycleSurface env s2 overlaps p gpu_addr preserve_contents
              .FullMatch
          (s3, ev ++ ev2, r)

/-- `TextureCache::GetSurface` (texture_cache.h, lines 546-674). -/
def getSurface (env : Env) (s : CacheState) (gpu_addr : Nat)
    (p : SurfaceParams) (preserve_contents is_render : Bool) :
    CacheState × List Event × (Nat × View) :=
  let cache_addr := env.gpuToCache gpu_addr
  -- Step 0: if translation fails, build a degenerate 1x1x1 surface
  if cache_addr = 0 then
    initializeSurface env s gpu_addr
      { p with width := 1, height := 1, depth := 1, block_height := 0,
               block_depth := 0 }
      false
  else
    match lookupA s.l1_cache cache_addr with
    | some cur =>
      let cparams := paramsOf s cur
      let topological_result := env.matchesTopology cparams p
      if topological_result ≠ .FullMatch then
        recycleSurface env s [cur] p gpu_addr preserve_contents
          topological_result
      else
        let struct_result := env.matchesStructure cparams p
        if struct_result ≠ .NoneStructure ∧
           (p.target ≠ .Texture3D ∨ env.matchTarget cparams p.target) then
          if struct_result = .FullMatch then
            manageStructuralMatch env s cur p is_render
          else rebuildSurface env s cur p is_render
        else getSurfaceStep2 env s gpu_addr cache_addr p preserve_contents is_render
    | none => getSurfaceStep2 env s gpu_addr cache_addr p preserve_contents is_render

/-- `TextureCache::GetTextureSurface` (texture_cache.h, lines 92-105), as a
function of the descriptor GPU address `config.tic.Address()` and of the
`SurfaceParams` that `SurfaceParams::CreateForTexture` would build for the
configuration (`surface_params.h` is not in the provided sources; the
parameters are only computed after the null-address check). -/
def getTextureSurface (env : Env) (s : CacheState) (tic_address : Nat)
    (p : SurfaceParams) : CacheState × List Event × Option View :=
  if tic_address = 0 then (s, [], none)
  else
    let (s1, ev, r) := getSurface env s tic_address p true false
    if s1.guard_samplers then
      ({ s1 with sampled_textures := s1.sampled_textures ++ [r.1] }, ev, some r.2)
    else (s1, ev, some r.2)

/-- A concrete linear (untiled), non-3D, 2D surface description. -/
def linearParams : SurfaceParams :=
  { is_tiled := false
    block_width := 0
    block_height := 0
    block_depth := 0
    width := 64
    height := 64
    depth := 1
    pixel_format := .ABGR8U
    component_type := 0
    type := 0
    num_levels := 1
    is_layered := false
    target := .Texture2D }

/-- A concrete tiled, non-3D, 2D surface description. -/
def tiledParams : SurfaceParams :=
  { linearParams with is_tiled := true, block_height := 16 }

/-- A concrete environment for witness evaluations: GPU addresses translate
to themselves (`0` stays the null pointer), layout oracles are simple
stand-ins. -/
def testEnv : Env :=
  { accurate := false
    gpuToCache := fun g => g
    gpuToCpu := fun g => if g = 0 then none else some g
    isContinuous := fun _ _ => true
    guestSize := fun p => p.width * p.height * p.depth
    matchesTopology := fun a b =>
      if a.is_tiled = b.is_tiled then .FullMatch else .CompressUnmatch
    matchesStructure := fun _ _ => .NoneStructure
    matchTarget := fun a t => a.target = t
    matchFormat := fun a f => a.pixel_format = f
    emplaceView := fun _ _ _ _ _ => false
    matchesSubTexture := fun _ _ _ => false
    getLayerMipmap := fun _ ng da => if da = ng then some (0, 0) else none
    mipmapSize := fun p _ => p.width * p.height * p.depth
    breakDown := fun _ _ => []
    intersectWidth := fun a _ _ _ => a.width
    intersectHeight := fun a _ _ _ => a.height
    convertWidth := fun w _ _ => w
    convertHeight := fun h _ _ => h }

/-- Whether a trace contains a load from guest memory
(`LoadSurface`'s backend upload). -/
def hasLoad : List Event → Bool
  | [] => false
  | Event.load _ :: _ => true
  | _ :: rest => hasLoad rest

/-- A concrete registered, tiled, unprotected surface backed by
`[4096, 8192)`. -/
def surfC4 : SurfaceData :=
  { gpu_addr := 4096
    cpu_addr := 4096
    cache_addr := 4096
    size_in_bytes := 4096
    params := tiledParams
    registered := true
    picked := false
    modified := false
    modification_tick := 0
    is_render_target := false
    is_protected := false
    continuous := true }

/-- A cache holding exactly `surfC4` as surface 1, fully indexed. -/
def stC4 : CacheState :=
  { surfaces := [(1, surfC4)]
    next_id := 2
    ticks := 0
    guard_render_targets := false
    guard_samplers := false
    registry := [(0, [1])]
    l1_cache := [(4096, 1)]
    surface_reserve := []
    sampled_textures := [] }

/-- A surface record with its transient pick mark cleared — the scan of
`GetSurfacesInRegion` only ever touches this field. -/
def stripPicked (d : SurfaceData) : SurfaceData := { d with picked := false }

/-- The surfaces written back by a trace, in order. -/
def flushedIds (ev : List Event) : List Nat :=
  ev.filterMap fun e =>
    match e with
    | .flushed sid => some sid
    | _ => none

/-- Whether a trace writes the given surface back to guest memory. -/
def hasFlushed : List Event → Nat → Bool
  | [], _ => false
  | Event.flushed x :: rest, sid =>
    if x = sid then true else hasFlushed rest sid
  | _ :: rest, sid => hasFlushed rest sid

/-- `beforeIn l x y`: scanning `l` left to right, an occurrence of `x`
appears strictly before the first occurrence of `y`. -/
def beforeIn : List Nat → Nat → Nat → Bool
  | [], _, _ => false
  | z :: rest, x, y =>
    if z = y then false
    else if z = x then decide (y ∈ rest)
    else beforeIn rest x y

/-- Whether one donor overlap passes both slot tests of the
`TryReconstructSurface` loop against a candidate with params `np` at
address `ng`: the donor is flat (not layered, single level), its address
maps to a (layer, mipmap) slot, and its byte size equals that mipmap's
expected size. -/
def donorMatches (env : Env) (np : SurfaceParams) (ng : Nat)
    (s : CacheState) (sid : Nat) : Bool :=
  match getSurf s sid with
  | none => false
  | some d =>
    if d.params.is_layered = true ∨ 1 < d.params.num_levels then false
    else
      match env.getLayerMipmap np ng d.gpu_addr with
      | none => false
      | some (_, mipmap) => decide (env.mipmapSize np mipmap = d.size_in_bytes)

/-- Whether the `TryReconstructSurface` loop takes its early `return {}`
because some donor is layered or has multiple mip levels. -/
def loopAborts (env : Env) (np : SurfaceParams) (ng : Nat) (s : CacheState) :
    List Nat → Bool
  | [] => false
  | sid :: rest =>
    match getSurf s sid with
    | none => loopAborts env np ng s rest
    | some d =>
      if d.params.is_layered = true ∨ 1 < d.params.num_levels then true
      else loopAborts env np ng s rest

/-- Modified surface at `[4096, 8192)` with modification tick 5. -/
def surfC5a : SurfaceData :=
  { surfC4 with modified := true, modification_tick := 5 }

/-- Modified surface at `[8192, 12288)` with modification tick 3. -/
def surfC5b : SurfaceData :=
  { surfC4 with gpu_addr := 8192, cpu_addr := 8192, cache_addr := 8192,
                modified := true, modification_tick := 3 }

/-- Unmodified surface at `[12288, 16384)`. -/
def surfC5c : SurfaceData :=
  { surfC4 with gpu_addr := 12288, cpu_addr := 12288, cache_addr := 12288 }

/-- A cache holding the three surfaces above, fully indexed. -/
def stC5 : CacheState :=
  { stC4 with
    surfaces := [(1, surfC5a), (2, surfC5b), (3, surfC5c)]
    next_id := 4
    ticks := 10
    registry := [(0, [1, 2, 3])]
    l1_cache := [(4096, 1), (8192, 2), (12288, 3)] }

/-- `surfC4`, additionally bound and protected as a render target. -/
def surfC6 : SurfaceData :=
  { surfC4 with is_protected := true, is_render_target := true }

/-- A cache holding the protected surface `surfC6` as surface 1, with the
render-target guard up. -/
def stC6 : CacheState :=
  { stC4 with surfaces := [(1, surfC6)], guard_render_targets := true }

/-- Variant environment in which no GPU address translates (every host
pointer is null). -/
def testEnvNull : Env :=
  { testEnv with gpuToCache := fun _ => 0, gpuToCpu := fun _ => none }

/-- Store sanity: every allocated surface id is below `next_id` (so backend
`CreateSurface` always yields a fresh id). -/
def storeWF (s : CacheState) : Prop :=
  ∀ pr ∈ s.surfaces, pr.1 < s.next_id

/-- Reserve sanity: every surface sitting in `surface_reserve[params]` is a
live surface whose `SurfaceParams` equal the key it was reserved under
(`ReserveSurface` is only called with `surface->GetSurfaceParams()` as the
key, and nothing mutates a surface's params afterwards). -/
def reserveWF (s : CacheState) : Prop :=
  ∀ pr ∈ s.surface_reserve, ∀ sid ∈ pr.2,
    (getSurf s sid).map (·.params) = some pr.1

/-- The return contract claim C1 asserts of `GetSurface`: the returned
`TView` references the returned surface, and that surface is in the
registered state in the cache state the call returns. -/
def regResult (t : CacheState × List Event × (Nat × View)) : Prop :=
  t.2.2.2.sid = t.2.2.1 ∧
  ∃ r, getSurf t.1 t.2.2.1 = some r ∧ r.registered = true

/-- L1 sanity: every surface indexed by the L1 cache is live and
registered (`Register` inserts into L1 and sets the flag together, and
`Unregister` removes and clears together). -/
def l1WF (s : CacheState) : Prop :=
  ∀ pr ∈ s.l1_cache, (getSurf s pr.2).map (·.registered) = some true

/-- Registry sanity: every surface sitting in a registry page bucket is
live and registered. -/
def registryWF (s : CacheState) : Prop :=
  ∀ pr ∈ s.registry, ∀ sid ∈ pr.2,
    (getSurf s sid).map (·.registered) = some true

/-- Address sanity of registered surfaces: a registered surface's GPU
address translates to a non-null cache pointer and to a CPU address
(`Register` refuses to register a surface otherwise). -/
def transWF (env : Env) (s : CacheState) : Prop :=
  ∀ pr ∈ s.surfaces, pr.2.registered = true →
    env.gpuToCache pr.2.gpu_addr ≠ 0 ∧
    (env.gpuToCpu pr.2.gpu_addr).isSome = true

/-- An empty cache. -/
def emptyState : CacheState :=
  { surfaces := []
    next_id := 1
    ticks := 0
    guard_render_targets := false
    guard_samplers := false
    registry := []
    l1_cache := []
    surface_reserve := []
    sampled_textures := [] }

/-- The indexing invariant claim C7 asserts: a surface is registered iff
its starting cache address keys an L1 entry holding it and it sits in the
bucket of every registry page its cache-address range overlaps. -/
def invC7 (s : CacheState) : Prop :=
  ∀ pr ∈ s.surfaces,
    (pr.2.registered = true ↔
      (lookupA s.l1_cache pr.2.cache_addr = some pr.1 ∧
       ∀ page ∈ pageList (pageOf pr.2.cache_addr)
           (pageOf (pr.2.cacheAddrEnd - 1)),
         pr.1 ∈ (lookupA s.registry page).getD []))

/-- An as-yet-unregistered surface over the same guest memory as `surfC4` /
`surfC6` (as `RecycleSurface` creates under the render-target guard when the
protected overlap could not be evicted). -/
def surfD7 : SurfaceData :=
  { surfC4 with cpu_addr := 0, cache_addr := 0, registered := false,
                continuous := false }

/-- A cache in render-target-guard mode holding the protected, registered
surface 1 (indexed at cache address 4096) and the fresh unregistered
surface 2 over the same GPU memory, about to be registered. -/
def stC7 : CacheState :=
  { surfaces := [(1, surfC6), (2, surfD7)]
    next_id := 3
    ticks := 0
    guard_render_targets := true
    guard_samplers := false
    registry := [(0, [1])]
    l1_cache := [(4096, 1)]
    surface_reserve := []
    sampled_textures := [] }

/-- A stale surface: unregistered, but with its `cache_addr` still set to
4096 (as `Unregister` leaves it — the flag is cleared, the address is
not). -/
def surfStale7 : SurfaceData :=
  { surfC4 with registered := false }

/-- A guard-free cache holding the stale unregistered surface 1 whose
leftover `cache_addr` aliases the starting address of the live registered
surface 2 (the state the mirage path's double-`Unregister` reaches after
`RebuildSurface` has unregistered the old surface and registered its
replacement at the same address). -/
def stC7c : CacheState :=
  { surfaces := [(1, surfStale7), (2, surfC4)]
    next_id := 3
    ticks := 0
    guard_render_targets := false
    guard_samplers := false
    registry := [(0, [2])]
    l1_cache := [(4096, 2)]
    surface_reserve := []
    sampled_textures := [] }

/-- A fresh unregistered surface over disjoint guest memory at GPU address
8192 (for exercising a well-separated `Register`). -/
def surfD7b : SurfaceData :=
  { surfD7 with gpu_addr := 8192 }

/-- `stC7` with the fresh surface moved to the disjoint address 8192, so
that the registration side condition holds. -/
def stC7b : CacheState :=
  { stC7 with surfaces := [(1, surfC6), (2, surfD7b)] }

/-! ## Theorems -/

/-! ### Association-list and store lemmas -/

theorem lookupA_mem {κ α : Type} [DecidableEq κ] {l : List (κ × α)} {k : κ}
    {v : α} (h : lookupA l k = some v) : (k, v) ∈ l := by
  induction l with
  | nil => simp [lookupA] at h
  | cons hd tl ih =>
    obtain ⟨k', v'⟩ := hd
    by_cases hk : k' = k
    · subst hk
      simp [lookupA] at h
      simp [h]
    · simp [lookupA, hk] at h
      exact List.mem_cons_of_mem _ (ih h)

theorem lookupA_eq_none_of {κ α : Type} [DecidableEq κ] {l : List (κ × α)}
    {k : κ} (h : ∀ pr ∈ l, pr.1 ≠ k) : lookupA l k = none := by
  induction l with
  | nil => rfl
  | cons hd tl ih =>
    have h1 : hd.1 ≠ k := h hd (List.mem_cons_self hd tl)
    have h2 : ∀ pr ∈ tl, pr.1 ≠ k := fun pr hpr => h pr (List.mem_cons_of_mem _ hpr)
    obtain ⟨k', v'⟩ := hd
    simpa [lookupA, h1] using ih h2

theorem lookupA_append {κ α : Type} [DecidableEq κ] {l₁ l₂ : List (κ × α)}
    {k : κ} (h : lookupA l₁ k = none) :
    lookupA (l₁ ++ l₂) k = lookupA l₂ k := by
  induction l₁ with
  | nil => rfl
  | cons hd tl ih =>
    obtain ⟨k', v'⟩ := hd
    by_cases hk : k' = k
    · simp [lookupA, hk] at h
    · simp [lookupA, hk] at h ⊢
      exact ih h

theorem lookupA_updateA_self {κ α : Type} [DecidableEq κ] (l : List (κ × α))
    (k : κ) (f : α → α) : lookupA (updateA l k f) k = (lookupA l k).map f := by
  induction l with
  | nil => rfl
  | cons hd tl ih =>
    obtain ⟨k', v'⟩ := hd
    by_cases hk : k' = k
    · simp [lookupA, updateA, hk]
    · simpa [lookupA, updateA, hk] using ih

theorem lookupA_updateA_ne {κ α : Type} [DecidableEq κ] (l : List (κ × α))
    {k k' : κ} (f : α → α) (h : k' ≠ k) :
    lookupA (updateA l k f) k' = lookupA l k' := by
  induction l with
  | nil => rfl
  | cons hd tl ih =>
    obtain ⟨k₀, v₀⟩ := hd
    by_cases hk : k₀ = k
    · subst hk
      simp [lookupA, updateA, Ne.symm h]
    · by_cases hk' : k₀ = k' <;> simp [lookupA, updateA, hk, hk', ih, h]

theorem lookupA_insertA_self {κ α : Type} [DecidableEq κ] (l : List (κ × α))
    (k : κ) (v : α) : lookupA (insertA l k v) k = some v := by
  induction l with
  | nil => simp [lookupA, insertA]
  | cons hd tl ih =>
    obtain ⟨k₀, v₀⟩ := hd
    by_cases hk : k₀ = k <;> simp [lookupA, insertA, hk, ih]

theorem lookupA_insertA_ne {κ α : Type} [DecidableEq κ] (l : List (κ × α))
    {k k' : κ} (v : α) (h : k' ≠ k) :
    lookupA (insertA l k v) k' = lookupA l k' := by
  induction l with
  | nil => simp [lookupA, insertA, Ne.symm h]
  | cons hd tl ih =>
    obtain ⟨k₀, v₀⟩ := hd
    by_cases hk : k₀ = k
    · subst hk
      simp [lookupA, insertA, Ne.symm h]
    · by_cases hk' : k₀ = k' <;> simp [lookupA, insertA, hk, hk', ih, h]

@[simp] theorem setSurf_registry (s : CacheState) (sid : Nat)
    (f : SurfaceData → SurfaceData) : (setSurf s sid f).registry = s.registry := rfl

@[simp] theorem setSurf_l1 (s : CacheState) (sid : Nat)
    (f : SurfaceData → SurfaceData) : (setSurf s sid f).l1_cache = s.l1_cache := rfl

@[simp] theorem setSurf_reserve (s : CacheState) (sid : Nat)
    (f : SurfaceData → SurfaceData) :
    (setSurf s sid f).surface_reserve = s.surface_reserve := rfl

@[simp] theorem setSurf_next (s : CacheState) (sid : Nat)
    (f : SurfaceData → SurfaceData) : (setSurf s sid f).next_id = s.next_id := rfl

@[simp] theorem setSurf_guard (s : CacheState) (sid : Nat)
    (f : SurfaceData → SurfaceData) :
    (setSurf s sid f).guard_render_targets = s.guard_render_targets := rfl

@[simp] theorem setSurf_ticks (s : CacheState) (sid : Nat)
    (f : SurfaceData → SurfaceData) : (setSurf s sid f).ticks = s.ticks := rfl

theorem getSurf_setSurf_self (s : CacheState) (sid : Nat)
    (f : SurfaceData → SurfaceData) :
    getSurf (setSurf s sid f) sid = (getSurf s sid).map f :=
  lookupA_updateA_self s.surfaces sid f

theorem getSurf_setSurf_ne (s : CacheState) {sid sid' : Nat}
    (f : SurfaceData → SurfaceData) (h : sid' ≠ sid) :
    getSurf (setSurf s sid f) sid' = getSurf s sid' :=
  lookupA_updateA_ne s.surfaces f h

/-- `Register` is a complete no-op when the surface's GPU address has no
host pointer (texture_cache.h, lines 279-283). -/
theorem register_noop {env : Env} {s : CacheState} {sid : Nat}
    {d : SurfaceData} (hd : getSurf s sid = some d)
    (hz : env.gpuToCache d.gpu_addr = 0) : register env s sid = (s, []) := by
  unfold register
  rw [hd]
  cases henv : env.gpuToCpu d.gpu_addr <;> simp [hz, henv]

/-- A successful `TryGetReservedSurface` yields a live, unregistered
surface whose params equal the lookup key. -/
theorem tryGetReservedSurface_spec {s : CacheState} {q : SurfaceParams}
    {sid : Nat} (hres : reserveWF s) (h : tryGetReservedSurface s q = some sid) :
    ∃ d, getSurf s sid = some d ∧ d.params = q ∧ d.registered = false := by
  unfold tryGetReservedSurface at h
  cases hl : lookupA s.surface_reserve q with
  | none => rw [hl] at h; exact absurd h (by simp)
  | some ids =>
    rw [hl] at h
    have hmem : sid ∈ ids := List.mem_of_find?_eq_some h
    have hpred := List.find?_some h
    have hkey := hres (q, ids) (lookupA_mem hl) sid hmem
    cases hg : getSurf s sid with
    | none => rw [hg] at hkey; exact absurd hkey (by simp)
    | some d =>
      rw [hg] at hkey hpred
      refine ⟨d, rfl, by simpa using hkey, ?_⟩
      simpa using hpred

/-- `InitializeSurface` with an untranslatable GPU address and
`preserve_contents = false`: no events, the three indices untouched, and
the produced surface carries the requested params but is left
unregistered. -/
theorem initializeSurface_untranslatable (env : Env) (s : CacheState)
    (g : Nat) (q : SurfaceParams) (hz : env.gpuToCache g = 0)
    (hres : reserveWF s) (hst : storeWF s) :
    match initializeSurface env s g q false with
    | (s', ev, (sid, _v)) =>
      ev = [] ∧ s'.registry = s.registry ∧ s'.l1_cache = s.l1_cache ∧
      s'.surface_reserve = s.surface_reserve ∧
      ∃ d, getSurf s' sid = some d ∧ d.params = q ∧ d.registered = false := by
  unfold initializeSurface getUncachedSurface
  cases htr : tryGetReservedSurface s q with
  | some sid =>
    obtain ⟨d0, hd0, hp0, hr0⟩ := tryGetReservedSurface_spec hres htr
    have hget : getSurf (setSurf s sid fun d => { d with gpu_addr := g }) sid
        = some { d0 with gpu_addr := g } := by
      rw [getSurf_setSurf_self, hd0]; rfl
    have hnoop := register_noop hget (by simpa using hz)
    simp only [htr, hnoop]
    exact ⟨rfl, rfl, rfl, rfl, { d0 with gpu_addr := g }, hget, hp0, hr0⟩
  | none =>
    have hnone : lookupA s.surfaces s.next_id = none :=
      lookupA_eq_none_of fun pr hpr => Nat.ne_of_lt (hst pr hpr)
    have hget : getSurf
        { s with surfaces := s.surfaces ++ [(s.next_id, freshSurface env g q)],
                 next_id := s.next_id + 1 } s.next_id =
        some (freshSurface env g q) := by
      show lookupA (s.surfaces ++ [(s.next_id, freshSurface env g q)])
        s.next_id = some (freshSurface env g q)
      rw [lookupA_append hnone]
      simp [lookupA]
    have hnoop := register_noop hget (by simpa [freshSurface] using hz)
    simp only [htr, hnoop]
    exact ⟨rfl, rfl, rfl, rfl, freshSurface env g q, hget, rfl, rfl⟩

/-! ### Claim theorems (continued) -/

/-- C1 (counterexample): with an address that fails translation, the
degenerate surface handed back by `GetSurface` is not registered —
`Register` inside `InitializeSurface` bails out on the null host pointer —
contradicting the claim that the returned Surface is registered with no
precondition on translation. -/
theorem getSurface_claimC1_counterexample :
    (getSurface testEnvNull emptyState 5 linearParams true false).2.2.1 = 1 ∧
    ((getSurf (getSurface testEnvNull emptyState 5 linearParams true false).1 1).map
      (·.registered)) = some false := by decide

/-- C2 (confirmed): when translation of `gpu_addr` fails, `GetSurface`
returns a degenerate surface whose params have width 1, height 1 and
depth 1, emits no load from guest memory (and no other backend call), and
leaves registry, L1 cache and reserve exactly unchanged — for any
well-formed store/reserve, any params and any flag values. -/
theorem getSurface_untranslatable (env : Env) (s : CacheState) (g : Nat)
    (p : SurfaceParams) (preserve_contents is_render : Bool)
    (hz : env.gpuToCache g = 0) (hres : reserveWF s) (hst : storeWF s) :
    match getSurface env s g p preserve_contents is_render with
    | (s', ev, (sid, _v)) =>
      ev = [] ∧ s'.registry = s.registry ∧ s'.l1_cache = s.l1_cache ∧
      s'.surface_reserve = s.surface_reserve ∧
      ∃ d, getSurf s' sid = some d ∧ d.params.width = 1 ∧
        d.params.height = 1 ∧ d.params.depth = 1 := by
  have h := initializeSurface_untranslatable env s g
    { p with width := 1, height := 1, depth := 1, block_height := 0,
             block_depth := 0 } hz hres hst
  unfold getSurface
  simp only [hz, reduceIte]
  revert h
  cases hinit : initializeSurface env s g
      { p with width := 1, height := 1, depth := 1, block_height := 0,
               block_depth := 0 } false with
  | mk s' rest =>
    obtain ⟨ev, sid, v⟩ := rest
    rintro ⟨h1, h2, h3, h4, d, hd, hp, hr⟩
    exact ⟨h1, h2, h3, h4, d, hd, by rw [hp], by rw [hp], by rw [hp]⟩

/-- C2 (witness): the untranslatable-address theorem evaluated at a
concrete call on the empty cache. -/
theorem getSurface_untranslatable_witness :
    match getSurface testEnv emptyState 0 linearParams true false with
    | (s', ev, (sid, _v)) =>
      ev = [] ∧ s'.registry = emptyState.registry ∧
      s'.l1_cache = emptyState.l1_cache ∧
      s'.surface_reserve = emptyState.surface_reserve ∧
      ∃ d, getSurf s' sid = some d ∧ d.params.width = 1 ∧
        d.params.height = 1 ∧ d.params.depth = 1 :=
  getSurface_untranslatable testEnv emptyState 0 linearParams true false
    (by decide) (by simp [reserveWF, emptyState]) (by simp [storeWF, emptyState])

/-! ### Frame and membership lemmas for the registry scan -/

theorem overlapsRange_of_strip {r d : SurfaceData}
    (h : stripPicked r = stripPicked d) (a e : Nat) :
    r.overlapsRange a e = d.overlapsRange a e := by
  have hc := congrArg SurfaceData.cache_addr h
  have hs := congrArg SurfaceData.size_in_bytes h
  simp only [stripPicked] at hc hs
  simp [SurfaceData.overlapsRange, SurfaceData.cacheAddrEnd, hc, hs]

theorem getSurf_strip_setPicked (s : CacheState) (y x : Nat) (b : Bool) :
    (getSurf (setSurf s y fun d => { d with picked := b }) x).map stripPicked =
      (getSurf s x).map stripPicked := by
  by_cases hx : x = y
  · subst hx
    rw [getSurf_setSurf_self]
    cases getSurf s x <;> simp [stripPicked]
  · rw [getSurf_setSurf_ne _ _ hx]

theorem pickPass_state_eq (a e : Nat) (bucket : List Nat) (s : CacheState)
    (acc : List Nat) :
    ∃ sf, (pickPass a e s bucket acc).1 = { s with surfaces := sf } := by
  induction bucket generalizing s acc with
  | nil => exact ⟨s.surfaces, rfl⟩
  | cons y rest ih =>
    simp only [pickPass]
    split
    · exact ih s acc
    · split
      · exact ih _ _
      · exact ih s acc

theorem pickPass_strip (a e : Nat) (bucket : List Nat) (s : CacheState)
    (acc : List Nat) (x : Nat) :
    (getSurf (pickPass a e s bucket acc).1 x).map stripPicked =
      (getSurf s x).map stripPicked := by
  induction bucket generalizing s acc with
  | nil => rfl
  | cons y rest ih =>
    simp only [pickPass]
    split
    · exact ih s acc
    · split
      · rw [ih _ _]
        exact getSurf_strip_setPicked s y x true
      · exact ih s acc

theorem pickPass_acc_append (a e : Nat) (bucket : List Nat) (s : CacheState)
    (acc : List Nat) : ∃ ex, (pickPass a e s bucket acc).2 = acc ++ ex := by
  induction bucket generalizing s acc with
  | nil => exact ⟨[], by simp [pickPass]⟩
  | cons y rest ih =>
    simp only [pickPass]
    split
    · exact ih s acc
    · split
      · rcases ih (setSurf s y fun d' => { d' with picked := true }) (acc ++ [y])
          with ⟨ex, hex⟩
        exact ⟨y :: ex, by rw [hex]; simp⟩
      · exact ih s acc

theorem pickPass_pickedInv (a e : Nat) (bucket : List Nat) (s : CacheState)
    (acc : List Nat) (sid : Nat)
    (hP : (getSurf s sid).map (·.picked) = some true → sid ∈ acc) :
    (getSurf (pickPass a e s bucket acc).1 sid).map (·.picked) = some true →
      sid ∈ (pickPass a e s bucket acc).2 := by
  induction bucket generalizing s acc with
  | nil => exact hP
  | cons y rest ih =>
    simp only [pickPass]
    split
    · exact ih s acc hP
    · split
      · refine ih _ _ ?_
        by_cases hsy : sid = y
        · subst hsy
          intro _
          simp
        · intro hpk
          rw [getSurf_setSurf_ne _ _ hsy] at hpk
          exact List.mem_append_left _ (hP hpk)
      · exact ih s acc hP

theorem pickPass_mem (a e : Nat) (bucket : List Nat) (s : CacheState)
    (acc : List Nat) (sid : Nat) (d : SurfaceData)
    (hP : (getSurf s sid).map (·.picked) = some true → sid ∈ acc)
    (hrec : (getSurf s sid).map stripPicked = some (stripPicked d))
    (hov : d.overlapsRange a e = true) (hmem : sid ∈ bucket) :
    sid ∈ (pickPass a e s bucket acc).2 := by
  induction bucket generalizing s acc with
  | nil => cases hmem
  | cons y rest ih =>
    rcases Option.map_eq_some'.1 hrec with ⟨r, hr, hstrip⟩
    simp only [pickPass]
    split
    · rename_i hy
      rcases List.mem_cons.1 hmem with hsy | hmem'
      · subst hsy
        rw [hy] at hr
        cases hr
      · exact ih s acc hP hrec hmem'
    · rename_i ry hy
      split
      · rename_i hcond
        by_cases hsy : sid = y
        · subst hsy
          rcases pickPass_acc_append a e rest
            (setSurf s sid fun d' => { d' with picked := true }) (acc ++ [sid])
            with ⟨ex, hex⟩
          rw [hex]
          exact List.mem_append_left _ (by simp)
        · have hmem' : sid ∈ rest := by
            rcases List.mem_cons.1 hmem with h1 | h2
            · exact absurd h1 hsy
            · exact h2
          refine ih _ _ ?_ ?_ hmem'
          · intro hpk
            rw [getSurf_setSurf_ne _ _ hsy] at hpk
            exact List.mem_append_left _ (hP hpk)
          · rw [getSurf_strip_setPicked s y sid true]
            exact hrec
      · rename_i hcond
        by_cases hsy : sid = y
        · subst hsy
          rw [hy] at hr
          cases hr
          have hovr : r.overlapsRange a e = true := by
            rw [overlapsRange_of_strip hstrip a e]
            exact hov
          have hpick : r.picked = true := by
            cases hpk : r.picked with
            | true => rfl
            | false => exact absurd (by simp [hpk, hovr]) hcond
          have hin : sid ∈ acc := hP (by rw [hy]; simp [hpick])
          rcases pickPass_acc_append a e rest s acc with ⟨ex, hex⟩
          rw [hex]
          exact List.mem_append_left _ hin
        · have hmem' : sid ∈ rest := by
            rcases List.mem_cons.1 hmem with h1 | h2
            · exact absurd h1 hsy
            · exact h2
          exact ih s acc hP hrec hmem'

theorem scanPages_cons (a e : Nat) (s : CacheState) (page : Nat)
    (rest acc : List Nat) :
    scanPages a e s (page :: rest) acc =
      scanPages a e
        (pickPass a e s ((lookupA s.registry page).getD []) acc).1 rest
        (pickPass a e s ((lookupA s.registry page).getD []) acc).2 := rfl

theorem scanPages_state_eq (a e : Nat) (pages : List Nat) (s : CacheState)
    (acc : List Nat) :
    ∃ sf, (scanPages a e s pages acc).1 = { s with surfaces := sf } := by
  induction pages generalizing s acc with
  | nil => exact ⟨s.surfaces, rfl⟩
  | cons page rest ih =>
    rw [scanPages_cons]
    rcases pickPass_state_eq a e ((lookupA s.registry page).getD []) s acc
      with ⟨sf', hs'⟩
    rcases ih (pickPass a e s ((lookupA s.registry page).getD []) acc).1
      (pickPass a e s ((lookupA s.registry page).getD []) acc).2
      with ⟨sf, hsf⟩
    refine ⟨sf, ?_⟩
    rw [hsf, hs']

theorem scanPages_strip (a e : Nat) (pages : List Nat) (s : CacheState)
    (acc : List Nat) (x : Nat) :
    (getSurf (scanPages a e s pages acc).1 x).map stripPicked =
      (getSurf s x).map stripPicked := by
  induction pages generalizing s acc with
  | nil => rfl
  | cons page rest ih =>
    rw [scanPages_cons]
    rw [ih _ _]
    exact pickPass_strip a e ((lookupA s.registry page).getD []) s acc x

theorem scanPages_acc_append (a e : Nat) (pages : List Nat) (s : CacheState)
    (acc : List Nat) : ∃ ex, (scanPages a e s pages acc).2 = acc ++ ex := by
  induction pages generalizing s acc with
  | nil => exact ⟨[], by simp [scanPages]⟩
  | cons page rest ih =>
    rw [scanPages_cons]
    rcases pickPass_acc_append a e ((lookupA s.registry page).getD []) s acc
      with ⟨ex1, hex1⟩
    rcases ih (pickPass a e s ((lookupA s.registry page).getD []) acc).1
      (pickPass a e s ((lookupA s.registry page).getD []) acc).2
      with ⟨ex2, hex2⟩
    refine ⟨ex1 ++ ex2, ?_⟩
    rw [hex2, hex1]
    simp

theorem scanPages_pickedInv (a e : Nat) (pages : List Nat) (s : CacheState)
    (acc : List Nat) (sid : Nat)
    (hP : (getSurf s sid).map (·.picked) = some true → sid ∈ acc) :
    (getSurf (scanPages a e s pages acc).1 sid).map (·.picked) = some true →
      sid ∈ (scanPages a e s pages acc).2 := by
  induction pages generalizing s acc with
  | nil => exact hP
  | cons page rest ih =>
    rw [scanPages_cons]
    exact ih _ _
      (pickPass_pickedInv a e ((lookupA s.registry page).getD []) s acc sid hP)

theorem scanPages_mem (a e : Nat) (pages : List Nat) (s : CacheState)
    (acc : List Nat) (sid : Nat) (d : SurfaceData)
    (hP : (getSurf s sid).map (·.picked) = some true → sid ∈ acc)
    (hrec : (getSurf s sid).map stripPicked = some (stripPicked d))
    (hov : d.overlapsRange a e = true)
    (hpage : ∃ p ∈ pages, sid ∈ (lookupA s.registry p).getD []) :
    sid ∈ (scanPages a e s pages acc).2 := by
  induction pages generalizing s acc with
  | nil => rcases hpage with ⟨p, hp, _⟩; cases hp
  | cons page rest ih =>
    rw [scanPages_cons]
    rcases hpage with ⟨p, hp, hbucket⟩
    rcases List.mem_cons.1 hp with hphead | hptail
    · subst hphead
      have h1 := pickPass_mem a e ((lookupA s.registry p).getD []) s acc sid d
        hP hrec hov hbucket
      rcases scanPages_acc_append a e rest
        (pickPass a e s ((lookupA s.registry p).getD []) acc).1
        (pickPass a e s ((lookupA s.registry p).getD []) acc).2 with ⟨ex, hex⟩
      rw [hex]
      exact List.mem_append_left _ h1
    · have hreg : (pickPass a e s ((lookupA s.registry page).getD []) acc).1.registry
          = s.registry := by
        rcases pickPass_state_eq a e ((lookupA s.registry page).getD []) s acc
          with ⟨sf, hs'⟩
        rw [hs']
      refine ih _ _
        (pickPass_pickedInv a e ((lookupA s.registry page).getD []) s acc sid hP)
        ?_ ?_
      · rw [pickPass_strip]
        exact hrec
      · exact ⟨p, hptail, by rw [hreg]; exact hbucket⟩

theorem clearFold_state_eq (ids : List Nat) (s : CacheState) :
    ∃ sf, ids.foldl
      (fun t sid => setSurf t sid fun d => { d with picked := false }) s =
      { s with surfaces := sf } := by
  induction ids generalizing s with
  | nil => exact ⟨s.surfaces, rfl⟩
  | cons y rest ih =>
    simp only [List.foldl_cons]
    rcases ih (setSurf s y fun d => { d with picked := false }) with ⟨sf, hsf⟩
    exact ⟨sf, by rw [hsf]; rfl⟩

theorem clearFold_strip (ids : List Nat) (s : CacheState) (x : Nat) :
    (getSurf (ids.foldl
      (fun t sid => setSurf t sid fun d => { d with picked := false }) s) x).map
        stripPicked = (getSurf s x).map stripPicked := by
  induction ids generalizing s with
  | nil => rfl
  | cons y rest ih =>
    simp only [List.foldl_cons]
    rw [ih, getSurf_strip_setPicked]

theorem getSurfacesInRegion_spec (s : CacheState) (addr size : Nat)
    (h : size ≠ 0) :
    getSurfacesInRegion s addr size =
      ((scanPages addr (addr + size) s
          (pageList (pageOf addr) (pageOf (addr + size - 1))) []).2.foldl
        (fun t sid => setSurf t sid fun d => { d with picked := false })
        (scanPages addr (addr + size) s
          (pageList (pageOf addr) (pageOf (addr + size - 1))) []).1,
       (scanPages addr (addr + size) s
          (pageList (pageOf addr) (pageOf (addr + size - 1))) []).2) := by
  unfold getSurfacesInRegion
  rw [if_neg h]

theorem getSurfacesInRegion_state_eq (s : CacheState) (addr size : Nat) :
    ∃ sf, (getSurfacesInRegion s addr size).1 = { s with surfaces := sf } := by
  by_cases hsz : size = 0
  · refine ⟨s.surfaces, ?_⟩
    unfold getSurfacesInRegion
    rw [if_pos hsz]
  · rw [getSurfacesInRegion_spec s addr size hsz]
    rcases scanPages_state_eq addr (addr + size)
      (pageList (pageOf addr) (pageOf (addr + size - 1))) s [] with ⟨sf', hs'⟩
    rcases clearFold_state_eq
      (scanPages addr (addr + size) s
        (pageList (pageOf addr) (pageOf (addr + size - 1))) []).2
      (scanPages addr (addr + size) s
        (pageList (pageOf addr) (pageOf (addr + size - 1))) []).1
      with ⟨sf, hsf⟩
    refine ⟨sf, ?_⟩
    show (scanPages addr (addr + size) s
        (pageList (pageOf addr) (pageOf (addr + size - 1))) []).2.foldl
        (fun t sid => setSurf t sid fun d => { d with picked := false })
        (scanPages addr (addr + size) s
          (pageList (pageOf addr) (pageOf (addr + size - 1))) []).1 =
      { s with surfaces := sf }
    rw [hsf, hs']

theorem getSurfacesInRegion_strip (s : CacheState) (addr size : Nat) (x : Nat) :
    (getSurf (getSurfacesInRegion s addr size).1 x).map stripPicked =
      (getSurf s x).map stripPicked := by
  by_cases hsz : size = 0
  · unfold getSurfacesInRegion
    rw [if_pos hsz]
  · rw [getSurfacesInRegion_spec s addr size hsz]
    show (getSurf ((scanPages _ _ _ _ _).2.foldl _ _) x).map stripPicked = _
    rw [clearFold_strip, scanPages_strip]

theorem getSurfacesInRegion_mem (s : CacheState) (addr size : Nat) (sid : Nat)
    (d : SurfaceData) (hsz : size ≠ 0) (hrec : getSurf s sid = some d)
    (hpick : d.picked = false)
    (hov : d.overlapsRange addr (addr + size) = true)
    (hpage : ∃ p ∈ pageList (pageOf addr) (pageOf (addr + size - 1)),
      sid ∈ (lookupA s.registry p).getD []) :
    sid ∈ (getSurfacesInRegion s addr size).2 := by
  rw [getSurfacesInRegion_spec s addr size hsz]
  exact scanPages_mem addr (addr + size)
    (pageList (pageOf addr) (pageOf (addr + size - 1))) s [] sid d
    (by rw [hrec]; simp [hpick]) (by rw [hrec]; rfl) hov hpage

/-! ### Frame lemmas for `Unregister` -/

theorem getSurf_unregisterInnerCache (s : CacheState) (sid x : Nat) :
    getSurf (unregisterInnerCache s sid) x = getSurf s x := by
  unfold unregisterInnerCache
  cases h : getSurf s sid <;> rfl

theorem getSurf_reserveSurface (s : CacheState) (p : SurfaceParams)
    (sid x : Nat) : getSurf (reserveSurface s p sid) x = getSurf s x := rfl

theorem unregisterInnerCache_guard (s : CacheState) (sid : Nat) :
    (unregisterInnerCache s sid).guard_render_targets =
      s.guard_render_targets := by
  unfold unregisterInnerCache
  split <;> rfl

theorem unregister_guard (s : CacheState) (sid : Nat) :
    (unregister s sid).1.guard_render_targets = s.guard_render_targets := by
  unfold unregister
  split
  · rfl
  · split
    · rfl
    · exact unregisterInnerCache_guard s sid

theorem getSurf_unregister_other (s : CacheState) {sid x : Nat}
    (hx : x ≠ sid) : getSurf (unregister s sid).1 x = getSurf s x := by
  unfold unregister
  split
  · rfl
  · split
    · rfl
    · show getSurf (reserveSurface _ _ _) x = _
      rw [getSurf_reserveSurface, getSurf_setSurf_ne _ _ hx,
        getSurf_unregisterInnerCache]

theorem unregister_protected_noop (s : CacheState) (sid : Nat)
    (d : SurfaceData) (hrec : getSurf s sid = some d)
    (hg : s.guard_render_targets = true) (hp : d.is_protected = true) :
    unregister s sid = (s, []) := by
  unfold unregister
  rw [hrec]
  simp [hg, hp]

theorem unregister_executes (s : CacheState) (sid : Nat) (d : SurfaceData)
    (hrec : getSurf s sid = some d)
    (hg : (s.guard_render_targets && d.is_protected) = false) :
    (getSurf (unregister s sid).1 sid).map (·.registered) = some false := by
  unfold unregister
  rw [hrec]
  simp only [hg, Bool.false_eq_true, reduceIte]
  rw [getSurf_reserveSurface, getSurf_setSurf_self,
    getSurf_unregisterInnerCache, hrec]
  rfl

theorem unregisterAll_acc (ids : List Nat) (s : CacheState)
    (acc : List Event) :
    ids.foldl
      (fun acc sid =>
        let (s', e) := unregister acc.1 sid
        (s', acc.2 ++ e))
      (s, acc) = ((unregisterAll s ids).1, acc ++ (unregisterAll s ids).2) := by
  induction ids generalizing s acc with
  | nil => simp [unregisterAll]
  | cons y rest ih =>
    simp only [unregisterAll, List.foldl_cons]
    rcases hu : unregister s y with ⟨s', e⟩
    simp only [hu]
    rw [ih s' (acc ++ e), ih s' ([] ++ e)]
    simp

theorem unregisterAll_cons_state (s : CacheState) (y : Nat) (rest : List Nat) :
    (unregisterAll s (y :: rest)).1 =
      (unregisterAll (unregister s y).1 rest).1 := by
  simp only [unregisterAll, List.foldl_cons]
  rcases hu : unregister s y with ⟨s', e⟩
  simp only [hu]
  rw [unregisterAll_acc rest s' ([] ++ e)]
  rw [show (unregisterAll s' rest) =
    (unregisterAll (s', e).1 rest) from rfl]
  rfl

theorem unregisterAll_guard (s : CacheState) (ids : List Nat) :
    (unregisterAll s ids).1.guard_render_targets = s.guard_render_targets := by
  induction ids generalizing s with
  | nil => rfl
  | cons y rest ih =>
    rw [unregisterAll_cons_state, ih, unregister_guard]

theorem getSurf_unregisterAll_protected (s : CacheState) (ids : List Nat)
    (sid : Nat) (d : SurfaceData) (hg : s.guard_render_targets = true)
    (hrec : getSurf s sid = some d) (hp : d.is_protected = true) :
    getSurf (unregisterAll s ids).1 sid = some d := by
  induction ids generalizing s with
  | nil => exact hrec
  | cons y rest ih =>
    rw [unregisterAll_cons_state]
    by_cases hy : y = sid
    · subst hy
      rw [unregister_protected_noop s y d hrec hg hp]
      exact ih s hg hrec
    · refine ih (unregister s y).1 ?_ ?_
      · rw [unregister_guard, hg]
      · rw [getSurf_unregister_other s (Ne.symm hy), hrec]

theorem unregisterAll_keeps_false (s : CacheState) (ids : List Nat) (sid : Nat)
    (hg : s.guard_render_targets = false)
    (h : (getSurf s sid).map (·.registered) = some false) :
    (getSurf (unregisterAll s ids).1 sid).map (·.registered) = some false := by
  induction ids generalizing s with
  | nil => exact h
  | cons y rest ih
 =>
    rw [unregisterAll_cons_state]
    refine ih (unregister s y).1 (by rw [unregister_guard, hg]) ?_
    by_cases hy : sid = y
    · subst hy
      rcases Option.map_eq_some'.1 h with ⟨r, hr, _⟩
      exact unregister_executes s sid r hr (by rw [hg]; rfl)
    · rw [getSurf_unregister_other s hy]
      exact h

theorem unregisterAll_registered_false (s : CacheState) (ids : List Nat)
    (sid : Nat) (hg : s.guard_render_targets = false) (hsid : sid ∈ ids)
    (hrec : (getSurf s sid).isSome = true) :
    (getSurf (unregisterAll s ids).1 sid).map (·.registered) = some false := by
  induction ids generalizing s with
  | nil => cases hsid
  | cons y rest ih =>
    rw [unregisterAll_cons_state]
    rcases List.mem_cons.1 hsid with hy | hmem
    · subst hy
      rcases Option.isSome_iff_exists.1 hrec with ⟨r, hr⟩
      refine unregisterAll_keeps_false (unregister s sid).1 rest sid
        (by rw [unregister_guard, hg]) ?_
      exact unregister_executes s sid r hr (by rw [hg]; rfl)
    · by_cases hy : sid = y
      · subst hy
        rcases Option.isSome_iff_exists.1 hrec with ⟨r, hr⟩
        refine unregisterAll_keeps_false (unregister s sid).1 rest sid
          (by rw [unregister_guard, hg]) ?_
        exact unregister_executes s sid r hr (by rw [hg]; rfl)
      · refine ih (unregister s y).1 (by rw [unregister_guard, hg]) hmem ?_
        rw [getSurf_unregister_other s hy]
        exact hrec

theorem invalidateRegion_eq (s : CacheState) (addr size : Nat) :
    invalidateRegion s addr size =
      unregisterAll (getSurfacesInRegion s addr size).1
        (getSurfacesInRegion s addr size).2 := rfl

theorem pageOf_le_pageOf {a b : Nat} (h : a ≤ b) : pageOf a ≤ pageOf b := by
  simp only [pageOf, Nat.shiftRight_eq_div_pow]
  exact Nat.div_le_div_right h

theorem pageOf_self_mem (a n : Nat) (h : n ≠ 0) :
    pageOf a ∈ pageList (pageOf a) (pageOf (a + n - 1)) := by
  unfold pageList
  have h1 : pageOf a ≤ pageOf (a + n - 1) := pageOf_le_pageOf (by omega)
  exact List.mem_range'_1.2 ⟨Nat.le_refl _, by omega⟩

/-- C6 (confirmed): with the render-target guard up, `Unregister` of a
protected surface leaves the whole cache state unchanged (no index change,
no page-count decrement, no event), so `InvalidateRegion` over the
surface's exact cache range leaves it registered; with the guard down, the
same `InvalidateRegion` unregisters it. -/
theorem guard_protected_invalidate (s : CacheState) (sid : Nat)
    (d : SurfaceData) (hd : getSurf s sid = some d)
    (hreg : d.registered = true) (hprot : d.is_protected = true)
    (hpick : d.picked = false) (hsz : d.size_in_bytes ≠ 0)
    (hbucket : sid ∈ (lookupA s.registry (pageOf d.cache_addr)).getD []) :
    (s.guard_render_targets = true →
      unregister s sid = (s, []) ∧
      (getSurf (invalidateRegion s d.cache_addr d.size_in_bytes).1 sid).map
        (·.registered) = some true) ∧
    (s.guard_render_targets = false →
      (getSurf (invalidateRegion s d.cache_addr d.size_in_bytes).1 sid).map
        (·.registered) = some false) := by
  have hov : d.overlapsRange d.cache_addr
      (d.cache_addr + d.size_in_bytes) = true := by
    simp [SurfaceData.overlapsRange, SurfaceData.cacheAddrEnd]
    omega
  have hstrip := getSurfacesInRegion_strip s d.cache_addr d.size_in_bytes sid
  rw [hd] at hstrip
  rcases Option.map_eq_some'.1 hstrip with ⟨r, hr, hrs⟩
  constructor
  · intro hg
    refine ⟨unregister_protected_noop s sid d hd hg hprot, ?_⟩
    rw [invalidateRegion_eq]
    have hguard1 : (getSurfacesInRegion s d.cache_addr
        d.size_in_bytes).1.guard_render_targets = true := by
      rcases getSurfacesInRegion_state_eq s d.cache_addr d.size_in_bytes
        with ⟨sf, hsf⟩
      rw [hsf]
      exact hg
    have hrp : r.is_protected = true := by
      have hh := congrArg SurfaceData.is_protected hrs
      simp only [stripPicked] at hh
      rw [hh]
      exact hprot
    have hrr : r.registered = true := by
      have hh := congrArg SurfaceData.registered hrs
      simp only [stripPicked] at hh
      rw [hh]
      exact hreg
    rw [getSurf_unregisterAll_protected _ _ sid r hguard1 hr hrp]
    simp [hrr]
  · intro hg
    rw [invalidateRegion_eq]
    have hguard1 : (getSurfacesInRegion s d.cache_addr
        d.size_in_bytes).1.guard_render_targets = false := by
      rcases getSurfacesInRegion_state_eq s d.cache_addr d.size_in_bytes
        with ⟨sf, hsf⟩
      rw [hsf]
      exact hg
    have hmem := getSurfacesInRegion_mem s d.cache_addr d.size_in_bytes sid d
      hsz hd hpick hov
      ⟨pageOf d.cache_addr, pageOf_self_mem d.cache_addr d.size_in_bytes hsz,
        hbucket⟩
    exact unregisterAll_registered_false _ _ sid hguard1 hmem (by rw [hr]; rfl)

/-- C6 (witness): the theorem applied at the concrete one-surface cache
`stC6`, whose only surface is bound and protected and whose guard flag is
up. -/
theorem guard_protected_invalidate_witness :
    (stC6.guard_render_targets = true →
      unregister stC6 1 = (stC6, []) ∧
      (getSurf (invalidateRegion stC6 surfC6.cache_addr
          surfC6.size_in_bytes).1 1).map (·.registered) = some true) ∧
    (stC6.guard_render_targets = false →
      (getSurf (invalidateRegion stC6 surfC6.cache_addr
          surfC6.size_in_bytes).1 1).map (·.registered) = some false) :=
  guard_protected_invalidate stC6 1 surfC6 (by decide) (by decide) (by decide)
    (by decide) (by decide) (by decide)

/-! ### Record preservation and no-duplicates for the scan (claim C5) -/

theorem stripPicked_eq_self {d : SurfaceData} (h : d.picked = false) :
    stripPicked d = d := by
  simp only [stripPicked]
  rw [← h]

theorem clearFold_preserves_record (ids : List Nat) (x : Nat)
    (r : SurfaceData) (hp : r.picked = false) :
    ∀ (s : CacheState), getSurf s x = some r →
    getSurf (ids.foldl
      (fun t sid => setSurf t sid fun d => { d with picked := false }) s) x =
      some r := by
  induction ids with
  | nil => exact fun s hr => hr
  | cons y rest ih =>
    intro s hr
    simp only [List.foldl_cons]
    by_cases hy : x = y
    · subst hy
      refine ih _ ?_
      rw [getSurf_setSurf_self, hr]
      show some ({ r with picked := false } : SurfaceData) = some r
      rw [show ({ r with picked := false } : SurfaceData) = r from by
        rw [← hp]]
    · refine ih _ ?_
      rw [getSurf_setSurf_ne _ _ hy]
      exact hr

theorem clearFold_sets_record (ids : List Nat) (x : Nat) (r : SurfaceData) :
    ∀ (s : CacheState), x ∈ ids → getSurf s x = some r →
    getSurf (ids.foldl
      (fun t sid => setSurf t sid fun d => { d with picked := false }) s) x =
      some { r with picked := false } := by
  induction ids with
  | nil => exact fun s hmem => absurd hmem (List.not_mem_nil x)
  | cons y rest ih =>
    intro s hmem hr
    simp only [List.foldl_cons]
    by_cases hy : x = y
    · subst hy
      refine clearFold_preserves_record rest x { r with picked := false }
        rfl _ ?_
      rw [getSurf_setSurf_self, hr]
      rfl
    · rcases List.mem_cons.1 hmem with h1 | h2
      · exact absurd h1 hy
      · refine ih _ h2 ?_
        rw [getSurf_setSurf_ne _ _ hy]
        exact hr

theorem getSurfacesInRegion_record (s : CacheState) (addr size x : Nat)
    (d : SurfaceData) (hrec : getSurf s x = some d) (hp : d.picked = false) :
    getSurf (getSurfacesInRegion s addr size).1 x = some d := by
  by_cases hsz : size = 0
  · unfold getSurfacesInRegion
    rw [if_pos hsz]
    exact hrec
  · rw [getSurfacesInRegion_spec s addr size hsz]
    have hstrip := scanPages_strip addr (addr + size)
      (pageList (pageOf addr) (pageOf (addr + size - 1))) s [] x
    rw [hrec] at hstrip
    rcases Option.map_eq_some'.1 hstrip with ⟨r, hr, hrs⟩
    by_cases hpr : r.picked = true
    · have hx : x ∈ (scanPages addr (addr + size) s
          (pageList (pageOf addr) (pageOf (addr + size - 1))) []).2 := by
        refine scanPages_pickedInv addr (addr + size)
          (pageList (pageOf addr) (pageOf (addr + size - 1))) s [] x ?_ ?_
        · intro hcontra
          rw [hrec] at hcontra
          simp [hp] at hcontra
        · rw [hr]
          simp [hpr]
      have hset := clearFold_sets_record _ x r _ hx hr
      rw [hset]
      rw [show ({ r with picked := false } : SurfaceData) = stripPicked r
        from rfl, hrs, stripPicked_eq_self hp]
    · have hprf : r.picked = false := by
        revert hpr
        cases r.picked <;> simp
      have hreq : r = d := by
        calc r = stripPicked r := (stripPicked_eq_self hprf).symm
        _ = stripPicked d := hrs
        _ = d := stripPicked_eq_self hp
      rw [clearFold_preserves_record _ x r hprf _ hr, hreq]

theorem pickPass_nodup (a e : Nat) (bucket : List Nat) (s : CacheState)
    (acc : List Nat) (hnd : acc.Nodup)
    (hpk : ∀ x ∈ acc, (getSurf s x).map (·.picked) = some true) :
    (pickPass a e s bucket acc).2.Nodup ∧
    ∀ x ∈ (pickPass a e s bucket acc).2,
      (getSurf (pickPass a e s bucket acc).1 x).map (·.picked) = some true := by
  induction bucket generalizing s acc with
  | nil => exact ⟨hnd, hpk⟩
  | cons y rest ih =>
    simp only [pickPass]
    split
    · exact ih s acc hnd hpk
    · rename_i r hy
      split
      · rename_i hcond
        have hrp : r.picked = false := by
          revert hcond
          cases r.picked <;> simp
        have hynotin : y ∉ acc := by
          intro hin
          have hh := hpk y hin
          rw [hy] at hh
          simp [hrp] at hh
        refine ih _ _ ?_ ?_
        · simp [List.nodup_append, hnd, hynotin]
        · intro x hx
          by_cases hxey : x = y
          · subst hxey
            rw [getSurf_setSurf_self, hy]
            rfl
          · rcases List.mem_append.1 hx with hxa | hxy
            · rw [getSurf_setSurf_ne _ _ hxey]
              exact hpk x hxa
            · exact absurd (by simpa using hxy) hxey
      · exact ih s acc hnd hpk

theorem scanPages_nodup (a e : Nat) (pages : List Nat) (s : CacheState)
    (acc : List Nat) (hnd : acc.Nodup)
    (hpk : ∀ x ∈ acc, (getSurf s x).map (·.picked) = some true) :
    (scanPages a e s pages acc).2.Nodup := by
  induction pages generalizing s acc with
  | nil => exact hnd
  | cons page rest ih =>
    rw [scanPages_cons]
    obtain ⟨hn, hk⟩ := pickPass_nodup a e ((lookupA s.registry page).getD [])
      s acc hnd hpk
    exact ih _ _ hn hk

theorem getSurfacesInRegion_nodup (s : CacheState) (addr size : Nat) :
    (getSurfacesInRegion s addr size).2.Nodup := by
  by_cases hsz : size = 0
  · unfold getSurfacesInRegion
    rw [if_pos hsz]
    exact List.nodup_nil
  · rw [getSurfacesInRegion_spec s addr size hsz]
    exact scanPages_nodup addr (addr + size)
      (pageList (pageOf addr) (pageOf (addr + size - 1))) s [] List.nodup_nil
      (by intro x hx; cases hx)

/-! ### Flush lemmas (claim C5) -/

theorem hasFlushed_append (a b : List Event) (sid : Nat) :
    hasFlushed (a ++ b) sid = (hasFlushed a sid || hasFlushed b sid) := by
  induction a with
  | nil => simp [hasFlushed]
  | cons hd tl ih =>
    cases hd <;> simp [hasFlushed, ih, Bool.or_assoc]

theorem getSurf_markAsModified_other (s : CacheState) {y x : Nat} (b : Bool)
    (t : Nat) (hx : x ≠ y) :
    getSurf (markAsModified s y b t) x = getSurf s x := by
  unfold markAsModified
  exact getSurf_setSurf_ne _ _ hx

theorem flushSurface_none (s : CacheState) (y : Nat)
    (hr : getSurf s y = none) : flushSurface s y = (s, []) := by
  unfold flushSurface
  rw [hr]

theorem flushSurface_noop (s : CacheState) (y : Nat) (r : SurfaceData)
    (hr : getSurf s y = some r) (hm : r.modified = false) :
    flushSurface s y = (s, []) := by
  unfold flushSurface
  rw [hr]
  simp [hm]

theorem flushSurface_modified (s : CacheState) (y : Nat) (r : SurfaceData)
    (hr : getSurf s y = some r) (hm : r.modified = true) :
    flushSurface s y =
      (markAsModified (tickOp s).1 y false (tickOp s).2,
       [Event.flushed y]) := by
  unfold flushSurface
  rw [hr]
  simp [hm]

theorem getSurf_flushSurface_other (s : CacheState) (y : Nat) {x : Nat}
    (hx : x ≠ y) : getSurf (flushSurface s y).1 x = getSurf s x := by
  cases hr : getSurf s y with
  | none => rw [flushSurface_none s y hr]
  | some r =>
    cases hm : r.modified with
    | false => rw [flushSurface_noop s y r hr hm]
    | true =>
      rw [flushSurface_modified s y r hr hm]
      show getSurf (markAsModified (tickOp s).1 y false (tickOp s).2) x = _
      rw [getSurf_markAsModified_other _ false _ hx]
      rfl

theorem hasFlushed_flushSurface (s : CacheState) (y : Nat) {sid : Nat}
    (h : y ≠ sid) : hasFlushed (flushSurface s y).2 sid = false := by
  cases hr : getSurf s y with
  | none => rw [flushSurface_none s y hr]; rfl
  | some r =>
    cases hm : r.modified with
    | false => rw [flushSurface_noop s y r hr hm]; rfl
    | true =>
      rw [flushSurface_modified s y r hr hm]
      simp [hasFlushed, h]

theorem flushAll_acc (ids : List Nat) (s : CacheState) (acc : List Event) :
    ids.foldl
      (fun acc sid =>
        let (s', e) := flushSurface acc.1 sid
        (s', acc.2 ++ e))
      (s, acc) = ((flushAll s ids).1, acc ++ (flushAll s ids).2) := by
  induction ids generalizing s acc with
  | nil => simp [flushAll]
  | cons y rest ih =>
    simp only [flushAll, List.foldl_cons]
    rcases hf : flushSurface s y with ⟨s', e⟩
    simp only [hf]
    rw [ih s' (acc ++ e), ih s' ([] ++ e)]
    simp

theorem flushAll_cons (s : CacheState) (y : Nat) (rest : List Nat) :
    flushAll s (y :: rest) =
      ((flushAll (flushSurface s y).1 rest).1,
       (flushSurface s y).2 ++ (flushAll (flushSurface s y).1 rest).2) := by
  simp only [flushAll, List.foldl_cons]
  rcases hf : flushSurface s y with ⟨s', e⟩
  simp only [hf]
  rw [flushAll_acc rest s' ([] ++ e)]
  simp [flushAll]

theorem flushedIds_append (a b : List Event) :
    flushedIds (a ++ b) = flushedIds a ++ flushedIds b := by
  simp [flushedIds]

theorem flushAll_events (s : CacheState) (ids : List Nat) (hnd : ids.Nodup) :
    flushedIds (flushAll s ids).2 =
      ids.filter fun sid => ((getSurf s sid).map (·.modified)).getD false := by
  induction ids generalizing s with
  | nil => rfl
  | cons y rest ih =>
    have hyni : y ∉ rest := (List.nodup_cons.1 hnd).1
    have hnd' : rest.Nodup := (List.nodup_cons.1 hnd).2
    rw [flushAll_cons]
    cases hys : getSurf s y with
    | none =>
      rw [flushSurface_none s y hys]
      show flushedIds ([] ++ (flushAll s rest).2) = _
      rw [List.nil_append, ih s hnd']
      simp [List.filter_cons, hys]
    | some r =>
      cases hm : r.modified with
      | false =>
        rw [flushSurface_noop s y r hys hm]
        show flushedIds ([] ++ (flushAll s rest).2) = _
        rw [List.nil_append, ih s hnd']
        simp [List.filter_cons, hys, hm]
      | true =>
        rw [flushSurface_modified s y r hys hm]
        show flushedIds ([Event.flushed y] ++
          (flushAll (markAsModified (tickOp s).1 y false (tickOp s).2)
            rest).2) = _
        have hcong : ∀ z ∈ rest,
            (((getSurf (markAsModified (tickOp s).1 y false (tickOp s).2)
              z).map (·.modified)).getD false) =
            (((getSurf s z).map (·.modified)).getD false) := by
          intro z hz
          have hzy : z ≠ y := fun hzz => hyni (hzz ▸ hz)
          rw [getSurf_markAsModified_other _ false _ hzy]
          rfl
        rw [flushedIds_append, ih _ hnd']
        rw [List.filter_congr hcong]
        simp [flushedIds, List.filter_cons, hys, hm]

theorem flushAll_unmodified (s : CacheState) (ids : List Nat) (sid : Nat)
    (r : SurfaceData) (hr : getSurf s sid = some r)
    (hm : r.modified = false) :
    getSurf (flushAll s ids).1 sid = some r ∧
    hasFlushed (flushAll s ids).2 sid = false := by
  induction ids generalizing s with
  | nil => exact ⟨hr, rfl⟩
  | cons y rest ih =>
    rw [flushAll_cons]
    by_cases hy : y = sid
    · subst hy
      rw [flushSurface_noop s y r hr hm]
      obtain ⟨ih1, ih2⟩ := ih s hr
      exact ⟨ih1, by rw [hasFlushed_append]; simp [hasFlushed, ih2]⟩
    · have hrec' : getSurf (flushSurface s y).1 sid = some r := by
        rw [getSurf_flushSurface_other s y (Ne.symm hy)]
        exact hr
      obtain ⟨ih1, ih2⟩ := ih (flushSurface s y).1 hrec'
      refine ⟨ih1, ?_⟩
      rw [hasFlushed_append, ih2, hasFlushed_flushSurface s y hy]
      rfl

theorem beforeIn_of_pairwise (f : Nat → Nat) :
    ∀ (l : List Nat) (x y : Nat),
      l.Pairwise (fun a b => f a ≤ f b) → x ∈ l → y ∈ l → f x < f y →
      beforeIn l x y = true := by
  intro l
  induction l with
  | nil => intro x y _ hx; cases hx
  | cons z rest ih =>
    intro x y hp hx hy hf
    rcases List.pairwise_cons.1 hp with ⟨hz, hp'⟩
    by_cases hzy : z = y
    · subst hzy
      rcases List.mem_cons.1 hx with hxz | hxr
      · subst hxz
        exact absurd hf (Nat.lt_irrefl _)
      · exact absurd hf (Nat.not_lt.2 (hz x hxr))
    · by_cases hzx : z = x
      · subst hzx
        have hyr : y ∈ rest := by
          rcases List.mem_cons.1 hy with h1 | h2
          · exact absurd h1.symm hzy
          · exact h2
        simp [beforeIn, hzy, hyr]
      · have hxr : x ∈ rest := by
          rcases List.mem_cons.1 hx with h1 | h2
          · exact absurd h1.symm hzx
          · exact h2
        have hyr : y ∈ rest := by
          rcases List.mem_cons.1 hy with h1 | h2
          · exact absurd h1.symm hzy
          · exact h2
        have := ih x y hp' hxr hyr hf
        simp [beforeIn, hzy, hzx, this]

theorem flushRegion_eq (s : CacheState) (addr size : Nat) :
    flushRegion s addr size =
      if (getSurfacesInRegion s addr size).2.isEmpty then
        ((getSurfacesInRegion s addr size).1, [])
      else
        flushAll (getSurfacesInRegion s addr size).1
          (sortByTick (getSurfacesInRegion s addr size).1
            (getSurfacesInRegion s addr size).2) := rfl

/-- C5 (confirmed): `FlushRegion` writes back every modified surface in
the region in ascending modification-tick order — of two modified surfaces
in the region with ticks `t1 < t2`, the `t1` surface is flushed strictly
before the `t2` surface — and an unmodified surface in (or out of) the
region keeps its exact record and is never written back. -/
theorem flushRegion_order (s : CacheState) (addr size : Nat)
    (sid1 sid2 sid3 : Nat) (d1 d2 d3 : SurfaceData)
    (h1 : getSurf s sid1 = some d1) (h2 : getSurf s sid2 = some d2)
    (h3 : getSurf s sid3 = some d3)
    (hm1 : d1.modified = true) (hm2 : d2.modified = true)
    (hm3 : d3.modified = false)
    (hp1 : d1.picked = false) (hp2 : d2.picked = false)
    (hp3 : d3.picked = false)
    (ht : d1.modification_tick < d2.modification_tick)
    (hin1 : sid1 ∈ (getSurfacesInRegion s addr size).2)
    (hin2 : sid2 ∈ (getSurfacesInRegion s addr size).2) :
    beforeIn (flushedIds (flushRegion s addr size).2) sid1 sid2 = true ∧
    getSurf (flushRegion s addr size).1 sid3 = some d3 ∧
    hasFlushed (flushRegion s addr size).2 sid3 = false := by
  have hne : (getSurfacesInRegion s addr size).2.isEmpty = false := by
    cases hi : (getSurfacesInRegion s addr size).2 with
    | nil => rw [hi] at hin1; cases hin1
    | cons a l => rfl
  have hflush : flushRegion s addr size =
      flushAll (getSurfacesInRegion s addr size).1
        (sortByTick (getSurfacesInRegion s addr size).1
          (getSurfacesInRegion s addr size).2) := by
    rw [flushRegion_eq, hne]
    rfl
  have hr1 := getSurfacesInRegion_record s addr size sid1 d1 h1 hp1
  have hr2 := getSurfacesInRegion_record s addr size sid2 d2 h2 hp2
  have hr3 := getSurfacesInRegion_record s addr size sid3 d3 h3 hp3
  have hnd := getSurfacesInRegion_nodup s addr size
  have hndsorted : (sortByTick (getSurfacesInRegion s addr size).1
      (getSurfacesInRegion s addr size).2).Nodup :=
    (List.mergeSort_perm _ _).nodup_iff.2 hnd
  have hpair : (sortByTick (getSurfacesInRegion s addr size).1
      (getSurfacesInRegion s addr size).2).Pairwise
      (fun a b => tickOf (getSurfacesInRegion s addr size).1 a ≤
        tickOf (getSurfacesInRegion s addr size).1 b) := by
    have hs := @List.sorted_mergeSort Nat
      (fun a b =>
        decide (tickOf (getSurfacesInRegion s addr size).1 a ≤
          tickOf (getSurfacesInRegion s addr size).1 b))
      (by
        intro a b c hab hbc
        exact decide_eq_true
          (Nat.le_trans (of_decide_eq_true hab) (of_decide_eq_true hbc)))
      (by
        intro a b
        rcases Nat.le_total (tickOf (getSurfacesInRegion s addr size).1 a)
          (tickOf (getSurfacesInRegion s addr size).1 b) with h | h <;>
          simp [h])
      (getSurfacesInRegion s addr size).2
    exact hs.imp fun hab => of_decide_eq_true hab
  have hev := flushAll_events (getSurfacesInRegion s addr size).1
    (sortByTick (getSurfacesInRegion s addr size).1
      (getSurfacesInRegion s addr size).2) hndsorted
  have hmem1 : sid1 ∈ (sortByTick (getSurfacesInRegion s addr size).1
      (getSurfacesInRegion s addr size).2).filter
      (fun sid => ((getSurf (getSurfacesInRegion s addr size).1 sid).map
        (·.modified)).getD false) :=
    List.mem_filter.2 ⟨List.mem_mergeSort.2 hin1, by rw [hr1]; simp [hm1]⟩
  have hmem2 : sid2 ∈ (sortByTick (getSurfacesInRegion s addr size).1
      (getSurfacesInRegion s addr size).2).filter
      (fun sid => ((getSurf (getSurfacesInRegion s addr size).1 sid).map
        (·.modified)).getD false) :=
    List.mem_filter.2 ⟨List.mem_mergeSort.2 hin2, by rw [hr2]; simp [hm2]⟩
  have hpairf := hpair.sublist (@List.filter_sublist Nat
    (fun sid => ((getSurf (getSurfacesInRegion s addr size).1 sid).map
      (·.modified)).getD false)
    (sortByTick (getSurfacesInRegion s addr size).1
      (getSurfacesInRegion s addr size).2))
  have htick1 : tickOf (getSurfacesInRegion s addr size).1 sid1 =
      d1.modification_tick := by
    unfold tickOf
    rw [hr1]
    rfl
  have htick2 : tickOf (getSurfacesInRegion s addr size).1 sid2 =
      d2.modification_tick := by
    unfold tickOf
    rw [hr2]
    rfl
  refine ⟨?_, ?_, ?_⟩
  · rw [hflush, hev]
    exact beforeIn_of_pairwise _ _ sid1 sid2 hpairf hmem1 hmem2
      (by rw [htick1, htick2]; exact ht)
  · rw [hflush]
    exact (flushAll_unmodified _ _ sid3 d3 hr3 hm3).1
  · rw [hflush]
    exact (flushAll_unmodified _ _ sid3 d3 hr3 hm3).2

/-- C5 (witness): the ordering theorem applied at the concrete three-surface
cache `stC5` — surfaces 2 (tick 3) and 1 (tick 5) are modified, surface 3
is not; the flush over the whole range writes 2 back before 1 and leaves 3
untouched. -/
theorem flushRegion_order_witness :
    beforeIn (flushedIds (flushRegion stC5 4096 12288).2) 2 1 = true ∧
    getSurf (flushRegion stC5 4096 12288).1 3 = some surfC5c ∧
    hasFlushed (flushRegion stC5 4096 12288).2 3 = false :=
  flushRegion_order stC5 4096 12288 2 1 3 surfC5b surfC5a surfC5c
    (by decide) (by decide) (by decide) (by decide) (by decide) (by decide)
    (by decide) (by decide) (by decide) (by decide) (by decide) (by decide)

/-! ### Load-freedom lemmas (claim C4) -/

theorem hasLoad_append (a b : List Event) :
    hasLoad (a ++ b) = (hasLoad a || hasLoad b) := by
  induction a with
  | nil => simp [hasLoad]
  | cons hd tl ih => cases hd <;> simp [hasLoad, ih]

theorem hasLoad_unregister (s : CacheState) (sid : Nat) :
    hasLoad (unregister s sid).2 = false := by
  unfold unregister
  cases h : getSurf s sid with
  | none => simp [hasLoad]
  | some d =>
    by_cases hg : (s.guard_render_targets && d.is_protected) = true <;>
      simp [hg, hasLoad]

theorem hasLoad_register (env : Env) (s : CacheState) (sid : Nat) :
    hasLoad (register env s sid).2 = false := by
  unfold register
  cases h : getSurf s sid with
  | none => simp [hasLoad]
  | some d =>
    simp only [h]
    cases hc : env.gpuToCpu d.gpu_addr with
    | none => simp [hc, hasLoad]
    | some cpu =>
      by_cases hz : env.gpuToCache d.gpu_addr = 0 <;> simp [hc, hz, hasLoad]

theorem hasLoad_unregisterAll_aux (ids : List Nat) (s : CacheState)
    (acc : List Event) (h : hasLoad acc = false) :
    hasLoad ((ids.foldl
      (fun acc sid =>
        let (s', e) := unregister acc.1 sid
        (s', acc.2 ++ e))
      (s, acc)).2) = false := by
  induction ids generalizing s acc with
  | nil => simpa using h
  | cons sid rest ih =>
    simp only [List.foldl_cons]
    rcases hu : unregister s sid with ⟨s', e⟩
    simp only [hu]
    refine ih s' (acc ++ e) ?_
    rw [hasLoad_append, h]
    have := hasLoad_unregister s sid
    rw [hu] at this
    simpa using this

theorem hasLoad_unregisterAll (s : CacheState) (ids : List Nat) :
    hasLoad (unregisterAll s ids).2 = false :=
  hasLoad_unregisterAll_aux ids s [] rfl

theorem hasLoad_initializeSurface (env : Env) (s : CacheState) (g : Nat)
    (p : SurfaceParams) : hasLoad (initializeSurface env s g p false).2.1 = false := by
  unfold initializeSurface
  rcases hgu : getUncachedSurface env s g p with ⟨s1, sid⟩
  simp only [hgu, Bool.false_eq_true, reduceIte]
  exact hasLoad_register env s1 sid

theorem pickStrategy_ignore_not_accurate {accurate : Bool}
    {ovs : List SurfaceParams} {p : SurfaceParams} {u : MatchTopologyResult}
    (h : PickStrategy accurate ovs p u = RecycleStrategy.Ignore) :
    accurate = false := by
  cases accurate with
  | false => rfl
  | true => simp [PickStrategy] at h

/-- C4 (counterexample): a call that reaches the `Ignore` strategy with
`preserve_contents = true` — the claim demands a load from guest memory,
but the trace contains none (`do_load` is `preserve_contents` AND the
accurate-GPU setting, and `Ignore` is only picked when that setting is
off).  The trace consists solely of the page-count events of the
unregister and re-register. -/
theorem recycleSurface_claimC4_counterexample :
    PickStrategy testEnv.accurate
      [paramsOf (unregisterAll stC4 [1]).1 1] tiledParams
      MatchTopologyResult.NoneTopology = RecycleStrategy.Ignore ∧
    (recycleSurface testEnv stC4 [1] tiledParams 4096 true
      MatchTopologyResult.NoneTopology).2.1 =
      [Event.pagesRemove 4096 4096, Event.pagesAdd 4096 4096] := by decide

/-- C4 (amended): whenever `RecycleSurface` resolves with the `Ignore`
strategy, the freshly allocated surface is loaded from guest memory if and
only if `preserve_contents` and the accurate-GPU-emulation setting are both
true; since `PickStrategy` only returns `Ignore` when that setting is off,
the surface is in fact never loaded on the `Ignore` path, whatever
`preserve_contents` is. -/
theorem recycleSurface_ignore_never_loads (env : Env) (s : CacheState)
    (overlaps : List Nat) (p : SurfaceParams) (g : Nat)
    (preserve_contents : Bool) (u : MatchTopologyResult)
    (hIgnore : PickStrategy env.accurate
      (overlaps.map (paramsOf (unregisterAll s overlaps).1)) p u =
      RecycleStrategy.Ignore) :
    hasLoad (recycleSurface env s overlaps p g preserve_contents u).2.1 =
      false := by
  have hacc : env.accurate = false := pickStrategy_ignore_not_accurate hIgnore
  unfold recycleSurface
  rcases hun : unregisterAll s overlaps with ⟨s1, ev1⟩
  rw [hun] at hIgnore
  have hIg : PickStrategy false (overlaps.map (paramsOf s1)) p u =
      RecycleStrategy.Ignore := by simpa [hacc] using hIgnore
  simp only [hun, hacc, Bool.and_false]
  rcases hinit : initializeSurface env s1 g p false with ⟨s2, ev2, r⟩
  have h2 : hasLoad ev2 = false := by
    have := hasLoad_initializeSurface env s1 g p
    rw [hinit] at this
    simpa using this
  have h1 : hasLoad ev1 = false := by
    have := hasLoad_unregisterAll s overlaps
    rw [hun] at this
    simpa using this
  simp [hIg, hinit, hasLoad_append, h1, h2]

/-- C4 (witness): the amended theorem applied at the concrete `Ignore`
call of the counterexample, with `preserve_contents = true`. -/
theorem recycleSurface_ignore_never_loads_witness :
    hasLoad (recycleSurface testEnv stC4 [1] tiledParams 4096 true
      MatchTopologyResult.NoneTopology).2.1 = false :=
  recycleSurface_ignore_never_loads testEnv stC4 [1] tiledParams 4096 true
    MatchTopologyResult.NoneTopology (by decide)

/-- C10 (confirmed): a texture configuration whose descriptor GPU address
is zero makes `GetTextureSurface` return the null view with the cache state
untouched and no backend call, while a nonzero address that fails
translation still produces a real (non-null) view through the degenerate
placeholder path. -/
theorem getTextureSurface_zero_address (env : Env) (s : CacheState)
    (p : SurfaceParams) (g : Nat) (hg : g ≠ 0) (hz : env.gpuToCache g = 0) :
    getTextureSurface env s 0 p = (s, [], none) ∧
    (getTextureSurface env s g p).2.2.isSome = true := by
  constructor
  · simp [getTextureSurface]
  · unfold getTextureSurface
    simp only [hg, reduceIte]
    unfold getSurface
    simp only [hz, reduceIte]
    cases hinit : initializeSurface env s g
        { p with width := 1, height := 1, depth := 1, block_height := 0,
                 block_depth := 0 } false with
    | mk s' rest =>
      obtain ⟨ev, sid, v⟩ := rest
      by_cases hgs : s'.guard_samplers <;> simp [hgs]

/-- C10 (witness): the zero-address theorem evaluated at a concrete
configuration. -/
theorem getTextureSurface_zero_address_witness :
    getTextureSurface testEnvNull emptyState 0 linearParams =
      (emptyState, [], none) ∧
    (getTextureSurface testEnvNull emptyState 7 linearParams).2.2.isSome = true :=
  getTextureSurface_zero_address testEnvNull emptyState linearParams 7
    (by decide) (by decide)

/-! ### `GetUncachedSurface` and `Register` lemmas (claim C9) -/

theorem lookupA_append_ne {κ α : Type} [DecidableEq κ]
    (l : List (κ × α)) {k x : κ} (v : α) (hx : x ≠ k) :
    lookupA (l ++ [(k, v)]) x = lookupA l x := by
  induction l with
  | nil => simp [lookupA, Ne.symm hx]
  | cons hd tl ih =>
    obtain ⟨k₀, v₀⟩ := hd
    by_cases hk : k₀ = x <;> simp [lookupA, hk, ih]

theorem getUncachedSurface_state_eq (env : Env) (s : CacheState) (g : Nat)
    (p : SurfaceParams) :
    ∃ sf n, (getUncachedSurface env s g p).1 =
      { s with surfaces := sf, next_id := n } := by
  unfold getUncachedSurface
  split
  · exact ⟨_, s.next_id, rfl⟩
  · exact ⟨_, s.next_id + 1, rfl⟩

theorem getUncachedSurface_record (env : Env) (s : CacheState) (g : Nat)
    (p : SurfaceParams) (hres : reserveWF s) (hst : storeWF s) :
    ∃ dn, getSurf (getUncachedSurface env s g p).1
        (getUncachedSurface env s g p).2 = some dn ∧
      dn.gpu_addr = g ∧ dn.params = p ∧ dn.registered = false := by
  unfold getUncachedSurface
  split
  · rename_i sid htr
    obtain ⟨d0, hd0, hp0, hr0⟩ := tryGetReservedSurface_spec hres htr
    refine ⟨{ d0 with gpu_addr := g }, ?_, rfl, hp0, hr0⟩
    rw [getSurf_setSurf_self, hd0]
    rfl
  · have hnone : lookupA s.surfaces s.next_id = none :=
      lookupA_eq_none_of fun pr hpr => Nat.ne_of_lt (hst pr hpr)
    refine ⟨freshSurface env g p, ?_, rfl, rfl, rfl⟩
    show lookupA (s.surfaces ++ [(s.next_id, freshSurface env g p)])
      s.next_id = some (freshSurface env g p)
    rw [lookupA_append hnone]
    simp [lookupA]

theorem getUncachedSurface_old_unregistered (env : Env) (s : CacheState)
    (g : Nat) (p : SurfaceParams) (hst : storeWF s) :
    ¬((getSurf s (getUncachedSurface env s g p).2).map (·.registered) =
      some true) := by
  unfold getUncachedSurface
  split
  · rename_i sid htr
    unfold tryGetReservedSurface at htr
    cases hl : lookupA s.surface_reserve p with
    | none => rw [hl] at htr; exact absurd htr (by simp)
    | some ids =>
      rw [hl] at htr
      have hpred := List.find?_some htr
      cases hg : getSurf s sid with
      | none => simp [hg]
      | some d =>
        rw [hg] at hpred
        simp only [Bool.not_eq_true'] at hpred
        simp [hg, hpred]
  · have hnone : lookupA s.surfaces s.next_id = none :=
      lookupA_eq_none_of fun pr hpr => Nat.ne_of_lt (hst pr hpr)
    show ¬((lookupA s.surfaces s.next_id).map (·.registered) = some true)
    rw [hnone]
    simp

theorem getSurf_getUncachedSurface_other (env : Env) (s : CacheState)
    (g : Nat) (p : SurfaceParams) {x : Nat}
    (hx : x ≠ (getUncachedSurface env s g p).2) :
    getSurf (getUncachedSurface env s g p).1 x = getSurf s x := by
  revert hx
  unfold getUncachedSurface
  split
  · rename_i sid htr
    intro hx
    exact getSurf_setSurf_ne _ _ hx
  · intro hx
    show lookupA (s.surfaces ++ [(s.next_id, freshSurface env g p)]) x =
      lookupA s.surfaces x
    rw [lookupA_append_ne _ _ hx]

theorem getSurf_registerInnerCache (s : CacheState) (sid x : Nat) :
    getSurf (registerInnerCache s sid) x = getSurf s x := by
  unfold registerInnerCache
  split <;> rfl

theorem registerInnerCache_guard (s : CacheState) (sid : Nat) :
    (registerInnerCache s sid).guard_render_targets =
      s.guard_render_targets := by
  unfold registerInnerCache
  split <;> rfl

theorem register_final (env : Env) (s : CacheState) (sid : Nat)
    (d : SurfaceData) (cpu : Nat) (hrec : getSurf s sid = some d)
    (hcpu : env.gpuToCpu d.gpu_addr = some cpu)
    (htr : env.gpuToCache d.gpu_addr ≠ 0) :
    ∃ r, getSurf (register env s sid).1 sid = some r ∧
      r.registered = true ∧ r.modified = d.modified := by
  simp only [register, hrec, hcpu]
  rw [if_neg htr]
  rw [getSurf_setSurf_self, getSurf_registerInnerCache, getSurf_setSurf_self,
    hrec]
  simp only [Option.map_some']
  exact ⟨_, rfl, rfl, rfl⟩

theorem getSurf_register_other (env : Env) (s : CacheState) (sid : Nat)
    {x : Nat} (hx : x ≠ sid) :
    getSurf (register env s sid).1 x = getSurf s x := by
  cases hy : getSurf s sid with
  | none => simp [register, hy]
  | some d =>
    cases hcpu : env.gpuToCpu d.gpu_addr with
    | none => simp [register, hy, hcpu]
    | some cpu =>
      simp only [register, hy, hcpu]
      by_cases hz : env.gpuToCache d.gpu_addr = 0
      · rw [if_pos hz]
      · rw [if_neg hz]
        rw [getSurf_setSurf_ne _ _ hx, getSurf_registerInnerCache,
          getSurf_setSurf_ne _ _ hx]

theorem unregister_executes_record (s : CacheState) (sid : Nat)
    (d : SurfaceData) (hrec : getSurf s sid = some d)
    (hg : (s.guard_render_targets && d.is_protected) = false) :
    getSurf (unregister s sid).1 sid = some { d with registered := false } := by
  unfold unregister
  rw [hrec]
  simp only [hg, Bool.false_eq_true, reduceIte]
  rw [getSurf_reserveSurface, getSurf_setSurf_self,
    getSurf_unregisterInnerCache, hrec]
  rfl

theorem getSurf_unregisterAll_notmem (ids : List Nat) :
    ∀ (s : CacheState) (x : Nat), x ∉ ids →
    getSurf (unregisterAll s ids).1 x = getSurf s x := by
  induction ids with
  | nil => exact fun s x _ => rfl
  | cons y rest ih =>
    intro s x hx
    rw [unregisterAll_cons_state]
    rw [ih _ x fun hmem => hx (List.mem_cons_of_mem _ hmem)]
    exact getSurf_unregister_other s fun hxy => hx (hxy ▸ List.mem_cons_self y rest)

theorem unregisterAll_keeps_unprot (ids : List Nat) :
    ∀ (s : CacheState) (sid : Nat) (r : SurfaceData),
    getSurf s sid = some r → r.registered = false →
    (s.guard_render_targets && r.is_protected) = false →
    (getSurf (unregisterAll s ids).1 sid).map (·.registered) = some false := by
  induction ids with
  | nil =>
    intro s sid r hr hreg _
    rw [unregisterAll]
    simp [hr, hreg]
  | cons y rest ih =>
    intro s sid r hr hreg hg
    rw [unregisterAll_cons_state]
    by_cases hy : sid = y
    · subst hy
      refine ih _ sid { r with registered := false }
        (unregister_executes_record s sid r hr hg) rfl ?_
      rw [unregister_guard]
      exact hg
    · refine ih _ sid r ?_ hreg ?_
      · rw [getSurf_unregister_other s hy]
        exact hr
      · rw [unregister_guard]
        exact hg

theorem unregisterAll_unprotected (ids : List Nat) :
    ∀ (s : CacheState) (sid : Nat) (dd : SurfaceData), sid ∈ ids →
    getSurf s sid = some dd →
    (s.guard_render_targets && dd.is_protected) = false →
    (getSurf (unregisterAll s ids).1 sid).map (·.registered) = some false := by
  induction ids with
  | nil => exact fun s sid dd hmem => absurd hmem (List.not_mem_nil sid)
  | cons y rest ih =>
    intro s sid dd hmem hrec hg
    rw [unregisterAll_cons_state]
    by_cases hy : sid = y
    · subst hy
      refine unregisterAll_keeps_unprot rest _ sid { dd with registered := false }
        (unregister_executes_record s sid dd hrec hg) rfl ?_
      rw [unregister_guard]
      exact hg
    · rcases List.mem_cons.1 hmem with h1 | h2
      · exact absurd h1 hy
      · refine ih _ sid dd h2 ?_ ?_
        · rw [getSurf_unregister_other s hy]
          exact hrec
        · rw [unregister_guard]
          exact hg

/-! ### The reconstruction loop (claim C9) -/

theorem reconstructLoop_state (env : Env) (np : SurfaceParams) (ng nsid : Nat) :
    ∀ (l : List Nat) (s : CacheState) (ev : List Event) (m : Bool) (pc : Nat),
    (reconstructLoop env np ng nsid l s ev m pc).1 = s := by
  intro l
  induction l with
  | nil => exact fun s ev m pc => rfl
  | cons sid rest ih =>
    intro s ev m pc
    simp only [reconstructLoop]
    split
    · exact ih s ev m pc
    · split
      · rfl
      · split
        · exact ih s ev m pc
        · split
          · exact ih s ev m pc
          · exact ih s _ _ _

theorem reconstructLoop_outcome (env : Env) (np : SurfaceParams)
    (ng nsid : Nat) :
    ∀ (l : List Nat) (s : CacheState) (ev : List Event) (m : Bool) (pc : Nat),
    (reconstructLoop env np ng nsid l s ev m pc).2.2 =
      if loopAborts env np ng s l then none
      else some
        (m || (l.filter (donorMatches env np ng s)).any
          (fun sid => ((getSurf s sid).map (·.modified)).getD false),
         pc + (l.filter (donorMatches env np ng s)).length) := by
  intro l
  induction l with
  | nil => intro s ev m pc; simp [reconstructLoop, loopAborts]
  | cons sid rest ih =>
    intro s ev m pc
    simp only [reconstructLoop]
    cases hy : getSurf s sid with
    | none =>
      simp only [hy]
      rw [ih s ev m pc]
      simp [loopAborts, donorMatches, hy, List.filter_cons]
    | some d =>
      simp only [hy]
      by_cases hl : d.params.is_layered = true ∨ 1 < d.params.num_levels
      · rw [if_pos hl]
        simp [loopAborts, hy, hl]
      · rw [if_neg hl]
        cases hlm : env.getLayerMipmap np ng d.gpu_addr with
        | none =>
          simp only [hlm]
          rw [ih s ev m pc]
          simp [loopAborts, donorMatches, hy, hl, hlm, List.filter_cons]
        | some lm =>
          obtain ⟨layer, mipmap⟩ := lm
          simp only [hlm]
          by_cases hsz : env.mipmapSize np mipmap ≠ d.size_in_bytes
          · rw [if_pos hsz]
            rw [ih s ev m pc]
            simp [loopAborts, donorMatches, hy, hl, hlm, hsz, List.filter_cons]
          · rw [if_neg hsz]
            rw [ih s _ _ _]
            have heq : env.mipmapSize np mipmap = d.size_in_bytes :=
              not_not.mp hsz
            have hdm : donorMatches env np ng s sid = true := by
              simp [donorMatches, hy, hl, hlm, heq]
            simp [loopAborts, hy, hl, List.filter_cons, hdm,
              Bool.or_assoc, Nat.add_assoc, Nat.add_comm 1]

/-- C3 (counterexample): the claim's clause (d) demands Flush only when the
overlaps were tiled, so for an untiled candidate over an untiled overlap
with a full topology match it predicts Ignore — but `PickStrategy` returns
Flush there (`untopological == FullMatch && !params.is_tiled` does not
consult the overlaps' tiling). -/
theorem pickStrategy_claimC3_counterexample :
    PickStrategy false [linearParams] linearParams .FullMatch =
      RecycleStrategy.Flush ∧
    pickStrategyClaimC3 false [linearParams] linearParams .FullMatch =
      RecycleStrategy.Ignore := by decide

/-- C3 (amended): `PickStrategy` returns Flush when strict accuracy is
configured; Flush when the candidate params or any overlap is a 3D texture
(block depth above one or a `Texture3D` target); Flush when the topology
result is `CompressUnmatch`; Flush when the topology result is `FullMatch`
and the candidate is untiled, regardless of the overlaps' tiling; and
Ignore in every other case — in particular it never returns `BufferCopy`.
Stated as: the result is Ignore exactly when none of the four Flush
conditions holds, and is never `BufferCopy`. -/
theorem pickStrategy_amended (accurate : Bool) (overlaps : List SurfaceParams)
    (params : SurfaceParams) (u : MatchTopologyResult) :
    (PickStrategy accurate overlaps params u = RecycleStrategy.Ignore ↔
      accurate = false ∧ is3DDecision params = false ∧
      (∀ q ∈ overlaps, is3DDecision q = false) ∧
      u ≠ MatchTopologyResult.CompressUnmatch ∧
      ¬(u = MatchTopologyResult.FullMatch ∧ params.is_tiled = false)) ∧
    PickStrategy accurate overlaps params u ≠ RecycleStrategy.BufferCopy := by
  unfold PickStrategy
  split_ifs with h1 h2 h3 h4 h5 <;>
    simp_all [List.any_eq_true, Bool.not_eq_true]

/-- C8 (counterexample): the siblings table does not map formats outside
the three declared pairs to themselves — it maps them to the sentinel
`PixelFormat::Invalid` (the constructor's fill value), and the table is
not symmetric at such a format either. -/
theorem siblings_table_claimC8_counterexample :
    GetSiblingFormat .ABGR8U = PixelFormat.Invalid ∧
    GetSiblingFormat .ABGR8U ≠ PixelFormat.ABGR8U ∧
    GetSiblingFormat (GetSiblingFormat .ABGR8U) ≠ PixelFormat.ABGR8U := by
  decide

/-- C8 (amended): the sibling table is a total mapping on `PixelFormat`
that contains exactly the three declared pairs `(Z16, R16U)`,
`(Z32F, R32F)`, `(Z32FS8, RG32F)` in both directions, maps every format
not in a declared pair to the sentinel `Invalid` (not to itself), is
symmetric on every format whose image is not the sentinel, and — being a
plain constant of the model — is never mutated after construction. -/
theorem siblings_table_amended :
    (GetSiblingFormat .Z16 = PixelFormat.R16U ∧
     GetSiblingFormat .R16U = PixelFormat.Z16 ∧
     GetSiblingFormat .Z32F = PixelFormat.R32F ∧
     GetSiblingFormat .R32F = PixelFormat.Z32F ∧
     GetSiblingFormat .Z32FS8 = PixelFormat.RG32F ∧
     GetSiblingFormat .RG32F = PixelFormat.Z32FS8) ∧
    (∀ a b : PixelFormat, GetSiblingFormat a = b → b ≠ PixelFormat.Invalid →
      GetSiblingFormat b = a) ∧
    (∀ f : PixelFormat,
      f ∉ ([.Z16, .R16U, .Z32F, .R32F, .Z32FS8, .RG32F] : List PixelFormat) →
      GetSiblingFormat f = PixelFormat.Invalid) := by
  decide

/-- C8 (witness): the symmetry clause of the amended theorem applied at the
concrete pair `(Z16, R16U)`. -/
theorem siblings_table_amended_witness :
    GetSiblingFormat .R16U = PixelFormat.Z16 :=
  siblings_table_amended.2.1 .Z16 .R16U (by decide) (by decide)

theorem listAny_congr {l : List Nat} {f g : Nat → Bool}
    (h : ∀ x ∈ l, f x = g x) : l.any f = l.any g := by
  induction l with
  | nil => rfl
  | cons hd tl ih =>
    simp only [List.any_cons]
    rw [h hd (List.mem_cons_self hd tl),
      ih fun x hx => h x (List.mem_cons_of_mem hd hx)]

theorem loopAborts_congr (env : Env) (np : SurfaceParams) (ng : Nat)
    (s1 s : CacheState) :
    ∀ (l : List Nat), (∀ sid ∈ l, getSurf s1 sid = getSurf s sid) →
    loopAborts env np ng s1 l = loopAborts env np ng s l := by
  intro l
  induction l with
  | nil => intro _; rfl
  | cons y rest ih =>
    intro h
    simp only [loopAborts]
    rw [h y (List.mem_cons_self y rest)]
    have ih' := ih fun x hx => h x (List.mem_cons_of_mem y hx)
    cases hY : getSurf s y with
    | none => simp only [hY]; exact ih'
    | some d =>
      simp only [hY]
      split
      · rfl
      · exact ih'

theorem reconstructAssemble_some (env : Env) (nsid : Nat)
    (overlaps : List Nat) (s2 : CacheState) (ev : List Event) (m : Bool)
    (passed : Nat) :
    reconstructAssemble env nsid overlaps (s2, ev, some (m, passed)) =
    (if passed = 0 then (s2, ev, none)
     else if env.accurate = true ∧ passed ≠ overlaps.length then
       (s2, ev, none)
     else
       ((register env
           (markAsModified (tickOp (unregisterAll s2 overlaps).1).1 nsid m
             (tickOp (unregisterAll s2 overlaps).1).2) nsid).1,
        ev ++ (unregisterAll s2 overlaps).2 ++
          (register env
            (markAsModified (tickOp (unregisterAll s2 overlaps).1).1 nsid m
              (tickOp (unregisterAll s2 overlaps).1).2) nsid).2,
        some (nsid, ⟨nsid, .mainView⟩))) := rfl

/-- C9 (counterexample): when `TryReconstructSurface` succeeds while the
render-target guard is up and a donor overlap is protected, that donor is
*not* unregistered (its `Unregister` is a no-op), contradicting the claim
that every overlap has been unregistered on success. -/
theorem tryReconstructSurface_claimC9_counterexample :
    (tryReconstructSurface testEnv stC6 [1] tiledParams 4096).2.2.isSome =
      true ∧
    ((getSurf (tryReconstructSurface testEnv stC6 [1] tiledParams 4096).1
      1).map (·.registered)) = some true := by decide

/-- C9 (amended): `TryReconstructSurface` returns nothing when the target
is 3D, when zero donor overlaps matched a (layer, mip) slot with the exact
expected byte size, or — under strict accuracy — when fewer than all
overlaps matched; when it returns a surface, every overlap that is not
protected under the render-target guard has been unregistered (a
protected overlap under guard mode stays registered), the new surface is
registered, and it is marked modified if and only if at least one matching
donor was modified. -/
theorem tryReconstructSurface_amended (env : Env) (s : CacheState)
    (overlaps : List Nat) (p : SurfaceParams) (g : Nat)
    (hres : reserveWF s) (hst : storeWF s)
    (hovreg : ∀ sid ∈ overlaps,
      (getSurf s sid).map (·.registered) = some true)
    (htr : env.gpuToCache g ≠ 0) (hcpu : (env.gpuToCpu g).isSome = true) :
    (p.target = SurfaceTarget.Texture3D →
      tryReconstructSurface env s overlaps p g = (s, [], none)) ∧
    ((overlaps.filter (donorMatches env p g s)).length = 0 →
      (tryReconstructSurface env s overlaps p g).2.2 = none) ∧
    (env.accurate = true →
      (overlaps.filter (donorMatches env p g s)).length ≠ overlaps.length →
      (tryReconstructSurface env s overlaps p g).2.2 = none) ∧
    (∀ nsid v,
      (tryReconstructSurface env s overlaps p g).2.2 = some (nsid, v) →
      (∀ sid dd, sid ∈ overlaps → getSurf s sid = some dd →
        (s.guard_render_targets && dd.is_protected) = false →
        (getSurf (tryReconstructSurface env s overlaps p g).1 sid).map
          (·.registered) = some false) ∧
      (∃ r, getSurf (tryReconstructSurface env s overlaps p g).1 nsid =
          some r ∧ r.registered = true ∧
        r.modified = (overlaps.filter (donorMatches env p g s)).any
          (fun sid => ((getSurf s sid).map (·.modified)).getD false))) := by
  by_cases h3d : p.target = SurfaceTarget.Texture3D
  · have hval : tryReconstructSurface env s overlaps p g = (s, [], none) := by
      unfold tryReconstructSurface
      rw [if_pos h3d]
    refine ⟨fun _ => hval, fun _ => by rw [hval], fun _ _ => by rw [hval], ?_⟩
    intro nsid v hsome
    rw [hval] at hsome
    cases hsome
  · obtain ⟨dn, hdn, hdng, hdnp, hdnr⟩ :=
      getUncachedSurface_record env s g p hres hst
    have hnp : paramsOf (getUncachedSurface env s g p).1
        (getUncachedSurface env s g p).2 = p := by
      unfold paramsOf
      rw [hdn]
      simpa using hdnp
    have hng : gpuAddrOf (getUncachedSurface env s g p).1
        (getUncachedSurface env s g p).2 = g := by
      unfold gpuAddrOf
      rw [hdn]
      simpa using hdng
    have hnotin : (getUncachedSurface env s g p).2 ∉ overlaps := by
      intro hmem
      exact getUncachedSurface_old_unregistered env s g p hst
        (hovreg _ hmem)
    have hcong : ∀ sid ∈ overlaps,
        getSurf (getUncachedSurface env s g p).1 sid = getSurf s sid := by
      intro sid hmem
      exact getSurf_getUncachedSurface_other env s g p
        fun he => hnotin (he ▸ hmem)
    have hdmcong : ∀ sid ∈ overlaps,
        donorMatches env p g (getUncachedSurface env s g p).1 sid =
        donorMatches env p g s sid := by
      intro sid hmem
      unfold donorMatches
      rw [hcong sid hmem]
    have hfiltercong : overlaps.filter
        (donorMatches env p g (getUncachedSurface env s g p).1) =
        overlaps.filter (donorMatches env p g s) :=
      List.filter_congr hdmcong
    have hanycong : (overlaps.filter (donorMatches env p g s)).any
        (fun sid => ((getSurf (getUncachedSurface env s g p).1 sid).map
          (·.modified)).getD false) =
        (overlaps.filter (donorMatches env p g s)).any
        (fun sid => ((getSurf s sid).map (·.modified)).getD false) := by
      refine listAny_congr ?_
      intro x hx
      rw [hcong x (List.mem_of_mem_filter hx)]
    have hguard1 : (getUncachedSurface env s g p).1.guard_render_targets
        = s.guard_render_targets := by
      obtain ⟨sf, n, hsn⟩ := getUncachedSurface_state_eq env s g p
      rw [hsn]
    unfold tryReconstructSurface
    rw [if_neg h3d]
    rcases hU : getUncachedSurface env s g p with ⟨s1, nsid⟩
    simp only [hU] at hdn hnp hng hnotin hcong hfiltercong hanycong hguard1 ⊢
    rw [hnp, hng]
    have houtcome := reconstructLoop_outcome env p g nsid overlaps s1 [] false 0
    have hstate := reconstructLoop_state env p g nsid overlaps s1 [] false 0
    rcases hloop : reconstructLoop env p g nsid overlaps s1 [] false 0
      with ⟨s2, ev, out⟩
    simp only [hloop] at houtcome hstate ⊢
    subst hstate
    by_cases hab : loopAborts env p g s2 overlaps = true
    · rw [if_pos hab] at houtcome
      subst houtcome
      exact ⟨fun h3 => absurd h3 h3d, fun _ => rfl, fun _ _ => rfl,
        fun nsid v hsome => by cases hsome⟩
    · rw [if_neg hab] at houtcome
      subst houtcome
      rw [reconstructAssemble_some, hfiltercong, hanycong]
      refine ⟨fun h3 => absurd h3 h3d, ?_, ?_, ?_⟩
      · intro hzero
        rw [hzero]
        rfl
      · intro hacc hneq
        by_cases hz : (0 + (overlaps.filter (donorMatches env p g s)).length)
            = 0
        · rw [if_pos hz]
        · rw [if_neg hz]
          rw [if_pos ⟨hacc, by simpa using hneq⟩]
      · intro nsid' v hsome
        by_cases hz : (0 + (overlaps.filter (donorMatches env p g s)).length)
            = 0
        · rw [if_pos hz] at hsome
          cases hsome
        · rw [if_neg hz] at hsome
          rw [if_neg hz]
          by_cases hae : env.accurate = true ∧
              0 + (overlaps.filter (donorMatches env p g s)).length ≠
                overlaps.length
          · rw [if_pos hae] at hsome
            cases hsome
          · rw [if_neg hae] at hsome ⊢
            rcases hun : unregisterAll s2 overlaps with ⟨s3, ev2⟩
            simp only [hun] at hsome ⊢
            rcases hreg : register env
                (markAsModified (tickOp s3).1 nsid
                  (false || (overlaps.filter (donorMatches env p g s)).any
                    fun sid => ((getSurf s sid).map (·.modified)).getD false)
                  (tickOp s3).2) nsid with ⟨s6, ev3⟩
            simp only [hreg] at hsome ⊢
            have hinj : (some (nsid, (⟨nsid, ViewTag.mainView⟩ : View)) :
                Option (Nat × View)) = some (nsid', v) := hsome
            injection hinj with h3
            injection h3 with h4 h5
            subst h4
            constructor
            · intro sid dd hmem hdd hg
              have hunp := unregisterAll_unprotected overlaps s2 sid dd hmem
                (by rw [hcong sid hmem]; exact hdd)
                (by rw [hguard1]; exact hg)
              rw [hun] at hunp
              have hne : sid ≠ nsid := fun he => hnotin (he ▸ hmem)
              rcases Option.map_eq_some'.1 hunp with ⟨rr, hrr, hrreg⟩
              have h6 : getSurf s6 sid = some rr := by
                have := getSurf_register_other env
                  (markAsModified (tickOp s3).1 nsid
                    (false || (overlaps.filter (donorMatches env p g s)).any
                      fun sid => ((getSurf s sid).map (·.modified)).getD
                        false) (tickOp s3).2) nsid hne
                rw [hreg] at this
                rw [this, getSurf_markAsModified_other _ _ _ hne]
                exact hrr
              rw [h6]
              simp [hrreg]
            · have hrecn : getSurf s3 nsid = some dn := by
                have := getSurf_unregisterAll_notmem overlaps s2 nsid hnotin
                rw [hun] at this
                rw [this]
                exact hdn
              rcases Option.isSome_iff_exists.1 hcpu with ⟨cpu, hcpueq⟩
              have hrec5 : getSurf
                  (markAsModified (tickOp s3).1 nsid
                    (false || (overlaps.filter (donorMatches env p g s)).any
                      fun sid => ((getSurf s sid).map (·.modified)).getD
                        false) (tickOp s3).2) nsid =
                  some { dn with
                    modified := (false ||
                      (overlaps.filter (donorMatches env p g s)).any
                      fun sid => ((getSurf s sid).map (·.modified)).getD
                        false),
                    modification_tick := (tickOp s3).2 } := by
                unfold markAsModified
                rw [getSurf_setSurf_self]
                show ((getSurf s3 nsid).map _) = _
                rw [hrecn]
                rfl
              obtain ⟨r, hr, hrreg, hrmod⟩ := register_final env _ _ _ cpu
                hrec5 (by rw [hdng]; exact hcpueq) (by rw [hdng]; exact htr)
              rw [hreg] at hr
              refine ⟨r, hr, hrreg, ?_⟩
              rw [hrmod]
              simp

/-- C9 (witness): the amended theorem applied at the concrete one-surface
cache `stC4` (guard down, donor unprotected): the reconstruction succeeds,
the donor ends up unregistered and the new surface registered. -/
theorem tryReconstructSurface_amended_witness :
    ((tiledParams.target = SurfaceTarget.Texture3D →
      tryReconstructSurface testEnv stC4 [1] tiledParams 4096 =
        (stC4, [], none)) ∧
    (([1].filter (donorMatches testEnv tiledParams 4096 stC4)).length = 0 →
      (tryReconstructSurface testEnv stC4 [1] tiledParams 4096).2.2 = none) ∧
    (testEnv.accurate = true →
      (([1].filter (donorMatches testEnv tiledParams 4096 stC4)).length ≠
        [1].length) →
      (tryReconstructSurface testEnv stC4 [1] tiledParams 4096).2.2 = none) ∧
    (∀ nsid v,
      (tryReconstructSurface testEnv stC4 [1] tiledParams 4096).2.2 =
        some (nsid, v) →
      (∀ sid dd, sid ∈ [1] → getSurf stC4 sid = some dd →
        (stC4.guard_render_targets && dd.is_protected) = false →
        (getSurf (tryReconstructSurface testEnv stC4 [1] tiledParams
          4096).1 sid).map (·.registered) = some false) ∧
      (∃ r, getSurf (tryReconstructSurface testEnv stC4 [1] tiledParams
          4096).1 nsid = some r ∧ r.registered = true ∧
        r.modified = ([1].filter (donorMatches testEnv tiledParams 4096
          stC4)).any
          (fun sid => ((getSurf stC4 sid).map (·.modified)).getD false)))) :=
  tryReconstructSurface_amended testEnv stC4 [1] tiledParams 4096
    (by unfold reserveWF; decide) (by unfold storeWF; decide) (by decide)
    (by decide) (by decide)

/-! ### Store-sanity preservation (towards claim C1) -/

theorem keys_updateA {κ α : Type} [DecidableEq κ] (l : List (κ × α)) (k : κ)
    (f : α → α) : (updateA l k f).map Prod.fst = l.map Prod.fst := by
  induction l with
  | nil => rfl
  | cons hd tl ih =>
    obtain ⟨k₀, v₀⟩ := hd
    by_cases hk : k₀ = k
    · subst hk
      simp [updateA]
    · simp [updateA, hk, ih]

theorem storeWF_frame {s s' : CacheState}
    (hk : s'.surfaces.map Prod.fst = s.surfaces.map Prod.fst)
    (hn : s'.next_id = s.next_id) (h : storeWF s) : storeWF s' := by
  intro pr hpr
  have h1 : pr.1 ∈ s'.surfaces.map Prod.fst := List.mem_map_of_mem _ hpr
  rw [hk] at h1
  rcases List.mem_map.1 h1 with ⟨pr', hpr', he⟩
  rw [hn, ← he]
  exact h pr' hpr'

theorem storeWF_setSurf {s : CacheState} (sid : Nat)
    (f : SurfaceData → SurfaceData) (h : storeWF s) :
    storeWF (setSurf s sid f) :=
  storeWF_frame (keys_updateA s.surfaces sid f) rfl h

theorem surfaces_unregisterInnerCache (s : CacheState) (sid : Nat) :
    (unregisterInnerCache s sid).surfaces = s.surfaces := by
  unfold unregisterInnerCache
  split <;> rfl

theorem next_unregisterInnerCache (s : CacheState) (sid : Nat) :
    (unregisterInnerCache s sid).next_id = s.next_id := by
  unfold unregisterInnerCache
  split <;> rfl

theorem storeWF_reserveSurface {s : CacheState} (p : SurfaceParams)
    (sid : Nat) (h : storeWF s) : storeWF (reserveSurface s p sid) :=
  storeWF_frame rfl rfl h

theorem storeWF_unregister {s : CacheState} (sid : Nat) (h : storeWF s) :
    storeWF (unregister s sid).1 := by
  unfold unregister
  split
  · exact h
  · split
    · exact h
    · refine storeWF_reserveSurface _ _ (storeWF_setSurf _ _ ?_)
      exact storeWF_frame
        (by rw [surfaces_unregisterInnerCache])
        (next_unregisterInnerCache s sid) h

theorem storeWF_unregisterAll (ids : List Nat) :
    ∀ s : CacheState, storeWF s → storeWF (unregisterAll s ids).1 := by
  induction ids with
  | nil => exact fun s h => h
  | cons y rest ih =>
    intro s h
    rw [unregisterAll_cons_state]
    exact ih _ (storeWF_unregister y h)

theorem storeWF_tickOp {s : CacheState} (h : storeWF s) :
    storeWF (tickOp s).1 := storeWF_frame rfl rfl h

theorem storeWF_markAsModified {s : CacheState} (sid : Nat) (b : Bool)
    (t : Nat) (h : storeWF s) : storeWF (markAsModified s sid b t) :=
  storeWF_setSurf sid _ h

theorem storeWF_flushSurface {s : CacheState} (sid : Nat) (h : storeWF s) :
    storeWF (flushSurface s sid).1 := by
  unfold flushSurface
  split
  · exact h
  · split
    · exact h
    · exact storeWF_markAsModified _ _ _ (storeWF_tickOp h)

theorem storeWF_flushAll (ids : List Nat) :
    ∀ s : CacheState, storeWF s → storeWF (flushAll s ids).1 := by
  induction ids with
  | nil => exact fun s h => h
  | cons y rest ih =>
    intro s h
    rw [flushAll_cons]
    exact ih _ (storeWF_flushSurface y h)

theorem surfaces_registerInnerCache (s : CacheState) (sid : Nat) :
    (registerInnerCache s sid).surfaces = s.surfaces := by
  unfold registerInnerCache
  split <;> rfl

theorem next_registerInnerCache (s : CacheState) (sid : Nat) :
    (registerInnerCache s sid).next_id = s.next_id := by
  unfold registerInnerCache
  split <;> rfl

theorem storeWF_register (env : Env) {s : CacheState} (sid : Nat)
    (h : storeWF s) : storeWF (register env s sid).1 := by
  cases hy : getSurf s sid with
  | none =>
    simp only [register, hy]
    exact h
  | some d =>
    cases hcpu : env.gpuToCpu d.gpu_addr with
    | none =>
      simp only [register, hy, hcpu]
      exact h
    | some cpu =>
      simp only [register, hy, hcpu]
      by_cases hz : env.gpuToCache d.gpu_addr = 0
      · rw [if_pos hz]
        exact h
      · rw [if_neg hz]
        refine storeWF_setSurf _ _ ?_
        refine storeWF_frame (by rw [surfaces_registerInnerCache])
          (next_registerInnerCache _ _) ?_
        exact storeWF_setSurf _ _ h

theorem storeWF_getUncachedSurface (env : Env) {s : CacheState} (g : Nat)
    (p : SurfaceParams) (h : storeWF s) :
    storeWF (getUncachedSurface env s g p).1 := by
  unfold getUncachedSurface
  split
  · exact storeWF_setSurf _ _ h
  · intro pr hpr
    rcases List.mem_append.1 hpr with h1 | h2
    · exact Nat.lt_succ_of_lt (h pr h1)
    · rcases List.mem_singleton.1 h2 with rfl
      exact Nat.lt_succ_self _

theorem pickPass_storeWF (a e : Nat) (bucket : List Nat) :
    ∀ (s : CacheState) (acc : List Nat), storeWF s →
    storeWF (pickPass a e s bucket acc).1 := by
  induction bucket with
  | nil => exact fun s acc h => h
  | cons y rest ih =>
    intro s acc h
    simp only [pickPass]
    split
    · exact ih s acc h
    · split
      · exact ih _ _ (storeWF_setSurf _ _ h)
      · exact ih s acc h

theorem scanPages_storeWF (a e : Nat) (pages : List Nat) :
    ∀ (s : CacheState) (acc : List Nat), storeWF s →
    storeWF (scanPages a e s pages acc).1 := by
  induction pages with
  | nil => exact fun s acc h => h
  | cons page rest ih =>
    intro s acc h
    rw [scanPages_cons]
    exact ih _ _ (pickPass_storeWF a e _ s acc h)

theorem clearFold_storeWF (ids : List Nat) :
    ∀ s : CacheState, storeWF s →
    storeWF (ids.foldl
      (fun t sid => setSurf t sid fun d => { d with picked := false }) s) := by
  induction ids with
  | nil => exact fun s h => h
  | cons y rest ih =>
    intro s h
    simp only [List.foldl_cons]
    exact ih _ (storeWF_setSurf _ _ h)

theorem getSurfacesInRegion_storeWF (s : CacheState) (addr size : Nat)
    (h : storeWF s) : storeWF (getSurfacesInRegion s addr size).1 := by
  by_cases hsz : size = 0
  · unfold getSurfacesInRegion
    rw [if_pos hsz]
    exact h
  · rw [getSurfacesInRegion_spec s addr size hsz]
    exact clearFold_storeWF _ _ (scanPages_storeWF _ _ _ s [] h)

theorem storeWF_tryReconstructSurface (env : Env) (s : CacheState)
    (overlaps : List Nat) (p : SurfaceParams) (g : Nat) (h : storeWF s) :
    storeWF (tryReconstructSurface env s overlaps p g).1 := by
  unfold tryReconstructSurface
  split
  · exact h
  · rcases hU : getUncachedSurface env s g p with ⟨s1, nsid⟩
    simp only [hU]
    have hst1 : storeWF s1 := by
      have := storeWF_getUncachedSurface env g p h
      rw [hU] at this
      exact this
    have hloopstate := reconstructLoop_state env (paramsOf s1 nsid)
      (gpuAddrOf s1 nsid) nsid overlaps s1 [] false 0
    rcases hloop : reconstructLoop env (paramsOf s1 nsid) (gpuAddrOf s1 nsid)
      nsid overlaps s1 [] false 0 with ⟨s2, ev, out⟩
    rw [hloop] at hloopstate
    have hs2 : s2 = s1 := hloopstate
    subst hs2
    cases out with
    | none => exact hst1
    | some mp =>
      obtain ⟨m, passed⟩ := mp
      rw [reconstructAssemble_some]
      split
      · exact hst1
      · split
        · exact hst1
        · exact storeWF_register env nsid
            (storeWF_markAsModified nsid m _
              (storeWF_tickOp (storeWF_unregisterAll overlaps s2 hst1)))

/-! ### The return contract of `GetSurface` (claim C1) -/

theorem getSurf_tickOp (s : CacheState) (x : Nat) :
    getSurf (tickOp s).1 x = getSurf s x := rfl

theorem getSurf_markAsModified_self (s : CacheState) (sid : Nat) (b : Bool)
    (t : Nat) : getSurf (markAsModified s sid b t) sid =
      (getSurf s sid).map
        fun d => { d with modified := b, modification_tick := t } :=
  getSurf_setSurf_self s sid _

/-- Like `getUncachedSurface_record`, but without the reserve sanity
hypothesis: the surface handed back always carries the requested GPU
address and is unregistered (its params are only known under
`reserveWF`). -/
theorem getUncachedSurface_record2 (env : Env) (s : CacheState) (g : Nat)
    (p : SurfaceParams) (hst : storeWF s) :
    ∃ dn, getSurf (getUncachedSurface env s g p).1
        (getUncachedSurface env s g p).2 = some dn ∧
      dn.gpu_addr = g ∧ dn.registered = false := by
  unfold getUncachedSurface
  split
  · rename_i sid htr
    unfold tryGetReservedSurface at htr
    cases hl : lookupA s.surface_reserve p with
    | none =>
      rw [hl] at htr
      exact absurd htr (by simp)
    | some ids =>
      rw [hl] at htr
      have hpred := List.find?_some htr
      cases hg : getSurf s sid with
      | none =>
        rw [hg] at hpred
        exact absurd hpred (by simp)
      | some d =>
        rw [hg] at hpred
        simp only [Bool.not_eq_true'] at hpred
        refine ⟨{ d with gpu_addr := g }, ?_, rfl, hpred⟩
        rw [getSurf_setSurf_self, hg]
        rfl
  · have hnone : lookupA s.surfaces s.next_id = none :=
      lookupA_eq_none_of fun pr hpr => Nat.ne_of_lt (hst pr hpr)
    refine ⟨freshSurface env g p, ?_, rfl, rfl⟩
    show lookupA (s.surfaces ++ [(s.next_id, freshSurface env g p)])
      s.next_id = some (freshSurface env g p)
    rw [lookupA_append hnone]
    simp [lookupA]

/-- `PickStrategy` only ever answers Flush or Ignore in this version of the
cache; the BufferCopy arm of `RecycleSurface` is dead code. -/
theorem pickStrategy_not_bufferCopy (accurate : Bool)
    (overlaps : List SurfaceParams) (params : SurfaceParams)
    (untopological : MatchTopologyResult) :
    PickStrategy accurate overlaps params untopological ≠ .BufferCopy := by
  unfold PickStrategy
  split_ifs <;> simp

/-- `InitializeSurface` hands back a registered surface whenever the
requested GPU address translates to a non-null cache pointer and to a CPU
address. -/
theorem initializeSurface_registered (env : Env) (s : CacheState) (g : Nat)
    (p : SurfaceParams) (pc : Bool) (hst : storeWF s)
    (htr : env.gpuToCache g ≠ 0) (hcpu : (env.gpuToCpu g).isSome = true) :
    regResult (initializeSurface env s g p pc) := by
  obtain ⟨dn, hdn, hdng, hdnr⟩ := getUncachedSurface_record2 env s g p hst
  rcases Option.isSome_iff_exists.1 hcpu with ⟨cpu, hcpueq⟩
  obtain ⟨r, hr, hrreg, hrmod⟩ := register_final env
    (getUncachedSurface env s g p).1 (getUncachedSurface env s g p).2 dn cpu
    hdn (by rw [hdng]; exact hcpueq) (by rw [hdng]; exact htr)
  unfold initializeSurface
  rcases hU : getUncachedSurface env s g p with ⟨s1, sid⟩
  simp only [hU] at hdn hr ⊢
  rcases hreg : register env s1 sid with ⟨s2, ev1⟩
  simp only [hreg] at hr ⊢
  by_cases hpc : pc = true
  · rw [if_pos hpc]
    refine ⟨rfl, ?_⟩
    show ∃ rr, getSurf (markAsModified (tickOp s2).1 sid false (tickOp s2).2)
        sid = some rr ∧ rr.registered = true
    rw [getSurf_markAsModified_self, getSurf_tickOp, hr]
    exact ⟨_, rfl, hrreg⟩
  · rw [if_neg hpc]
    exact ⟨rfl, r, hr, hrreg⟩

/-- `RecycleSurface` hands back a registered surface whenever the requested
GPU address translates both ways: both live strategies end in
`InitializeSurface`. -/
theorem recycleSurface_registered (env : Env) (s : CacheState)
    (overlaps : List Nat) (p : SurfaceParams) (g : Nat) (pc : Bool)
    (unto : MatchTopologyResult) (hst : storeWF s)
    (htr : env.gpuToCache g ≠ 0) (hcpu : (env.gpuToCpu g).isSome = true) :
    regResult (recycleSurface env s overlaps p g pc unto) := by
  unfold recycleSurface
  rcases hun : unregisterAll s overlaps with ⟨s1, ev1⟩
  simp only [hun]
  have hst1 : storeWF s1 := by
    have := storeWF_unregisterAll overlaps s hst
    rw [hun] at this
    exact this
  cases hps : PickStrategy env.accurate (overlaps.map (paramsOf s1)) p unto with
  | Ignore =>
    simp only [hps]
    rcases hini : initializeSurface env s1 g p (pc && env.accurate)
      with ⟨s2, ev2, r⟩
    simp only [hini]
    have hI := initializeSurface_registered env s1 g p (pc && env.accurate)
      hst1 htr hcpu
    rw [hini] at hI
    exact ⟨hI.1, hI.2⟩
  | Flush =>
    simp only [hps]
    rcases hfl : flushAll s1 (sortByTick s1 overlaps) with ⟨s2, ev2⟩
    simp only [hfl]
    have hst2 : storeWF s2 := by
      have := storeWF_flushAll (sortByTick s1 overlaps) s1 hst1
      rw [hfl] at this
      exact this
    rcases hini : initializeSurface env s2 g p pc with ⟨s3, ev3, r⟩
    simp only [hini]
    have hI := initializeSurface_registered env s2 g p pc hst2 htr hcpu
    rw [hini] at hI
    exact ⟨hI.1, hI.2⟩
  | BufferCopy => exact absurd hps (pickStrategy_not_bufferCopy _ _ _ _)

/-- Whenever `TryReconstructSurface` answers with a surface, that surface is
the new one, its view references it, and it has been registered (under the
hypotheses that the cache store is sane, every overlap is registered, and
the requested address translates both ways). -/
theorem tryReconstructSurface_registered (env : Env) (s : CacheState)
    (overlaps : List Nat) (p : SurfaceParams) (g : Nat) (hst : storeWF s)
    (hovreg : ∀ sid ∈ overlaps,
      (getSurf s sid).map (·.registered) = some true)
    (htr : env.gpuToCache g ≠ 0) (hcpu : (env.gpuToCpu g).isSome = true) :
    ∀ nsid v,
    (tryReconstructSurface env s overlaps p g).2.2 = some (nsid, v) →
    v.sid = nsid ∧
    ∃ r, getSurf (tryReconstructSurface env s overlaps p g).1 nsid =
      some r ∧ r.registered = true := by
  intro nsid' v hsome
  by_cases h3d : p.target = SurfaceTarget.Texture3D
  · unfold tryReconstructSurface at hsome
    rw [if_pos h3d] at hsome
    cases hsome
  · obtain ⟨dn, hdn, hdng, hdnr⟩ := getUncachedSurface_record2 env s g p hst
    have hnotin : (getUncachedSurface env s g p).2 ∉ overlaps := by
      intro hmem
      exact getUncachedSurface_old_unregistered env s g p hst (hovreg _ hmem)
    unfold tryReconstructSurface at hsome ⊢
    rw [if_neg h3d] at hsome ⊢
    rcases hU : getUncachedSurface env s g p with ⟨s1, nid⟩
    simp only [hU] at hdn hnotin hsome ⊢
    have hloopstate := reconstructLoop_state env (paramsOf s1 nid)
      (gpuAddrOf s1 nid) nid overlaps s1 [] false 0
    rcases hloop : reconstructLoop env (paramsOf s1 nid) (gpuAddrOf s1 nid)
      nid overlaps s1 [] false 0 with ⟨s2, ev, out⟩
    rw [hloop] at hloopstate hsome
    have hs2 : s2 = s1 := hloopstate
    subst hs2
    cases out with
    | none => cases hsome
    | some mp =>
      obtain ⟨m, passed⟩ := mp
      rw [reconstructAssemble_some] at hsome ⊢
      by_cases hz : passed = 0
      · rw [if_pos hz] at hsome
        cases hsome
      · rw [if_neg hz] at hsome ⊢
        by_cases hae : env.accurate = true ∧ passed ≠ overlaps.length
        · rw [if_pos hae] at hsome
          cases hsome
        · rw [if_neg hae] at hsome ⊢
          rcases hun : unregisterAll s2 overlaps with ⟨s3, ev2⟩
          simp only [hun] at hsome ⊢
          rcases hreg : register env
              (markAsModified (tickOp s3).1 nid m (tickOp s3).2) nid
            with ⟨s6, ev3⟩
          simp only [hreg] at hsome ⊢
          have hinj : (some (nid, (⟨nid, ViewTag.mainView⟩ : View)) :
              Option (Nat × View)) = some (nsid', v) := hsome
          injection hinj with h3
          injection h3 with h4 h5
          subst h4
          refine ⟨by rw [← h5], ?_⟩
          have hrecn : getSurf s3 nid = some dn := by
            have := getSurf_unregisterAll_notmem overlaps s2 nid hnotin
            rw [hun] at this
            rw [this]
            exact hdn
          rcases Option.isSome_iff_exists.1 hcpu with ⟨cpu, hcpueq⟩
          have hrec5 : getSurf
              (markAsModified (tickOp s3).1 nid m (tickOp s3).2) nid =
              some { dn with
                modified := m
                modification_tick := (tickOp s3).2 } := by
            rw [getSurf_markAsModified_self, getSurf_tickOp, hrecn]
            rfl
          obtain ⟨r, hr, hrreg, hrmod⟩ := register_final env _ nid _ cpu
            hrec5 (by rw [hdng]; exact hcpueq) (by rw [hdng]; exact htr)
          rw [hreg] at hr
          exact ⟨r, hr, hrreg⟩

/-- `RebuildSurface` hands back the freshly registered replacement surface
(and keeps the store sane), provided the current surface is live and
registered and its GPU address translates both ways (the replacement
inherits that address). -/
theorem rebuildSurface_registered (env : Env) (s : CacheState) (cur : Nat)
    (p : SurfaceParams) (ir : Bool) (hst : storeWF s) (d : SurfaceData)
    (hcur : getSurf s cur = some d) (hregd : d.registered = true)
    (htr : env.gpuToCache d.gpu_addr ≠ 0)
    (hcpu : (env.gpuToCpu d.gpu_addr).isSome = true) :
    regResult (rebuildSurface env s cur p ir) ∧
    storeWF (rebuildSurface env s cur p ir).1 := by
  unfold rebuildSurface
  simp only [hcur]
  rcases hQ : (if d.params.pixel_format ≠ p.pixel_format ∧ ir = false ∧
      GetSiblingFormat d.params.pixel_format = p.pixel_format then
      getUncachedSurface env s d.gpu_addr
        { p with
          pixel_format := d.params.pixel_format
          component_type := d.params.component_type
          type := d.params.type }
    else getUncachedSurface env s d.gpu_addr p) with ⟨s1, nsid⟩
  have hEx : ∃ q, getUncachedSurface env s d.gpu_addr q = (s1, nsid) := by
    by_cases hc : d.params.pixel_format ≠ p.pixel_format ∧ ir = false ∧
        GetSiblingFormat d.params.pixel_format = p.pixel_format
    · rw [if_pos hc] at hQ
      exact ⟨_, hQ⟩
    · rw [if_neg hc] at hQ
      exact ⟨_, hQ⟩
  obtain ⟨q, hq⟩ := hEx
  obtain ⟨dn, hdn, hdng, hdnr⟩ := getUncachedSurface_record2 env s d.gpu_addr
    q hst
  simp only [hq] at hdn
  have hst1 : storeWF s1 := by
    have := storeWF_getUncachedSurface env d.gpu_addr q hst
    rw [hq] at this
    exact this
  have hne : cur ≠ nsid := by
    intro he
    have hold := getUncachedSurface_old_unregistered env s d.gpu_addr q hst
    simp only [hq] at hold
    subst he
    exact hold (by rw [hcur]; simp [hregd])
  rcases hu : unregister s1 cur with ⟨s2, evu⟩
  simp only [hu]
  rcases hr : register env s2 nsid with ⟨s3, evr⟩
  simp only [hr]
  have hdn2 : getSurf s2 nsid = some dn := by
    have := getSurf_unregister_other s1 (Ne.symm hne)
    rw [hu] at this
    rw [this]
    exact hdn
  rcases Option.isSome_iff_exists.1 hcpu with ⟨cpu, hcpueq⟩
  obtain ⟨r, hrr, hrreg, hrmod⟩ := register_final env s2 nsid dn cpu hdn2
    (by rw [hdng]; exact hcpueq) (by rw [hdng]; exact htr)
  rw [hr] at hrr
  have hst2 : storeWF s2 := by
    have := storeWF_unregister cur hst1
    rw [hu] at this
    exact this
  have hst3 : storeWF s3 := by
    have := storeWF_register env nsid hst2
    rw [hr] at this
    exact this
  refine ⟨⟨rfl, ?_⟩, ?_⟩
  · show ∃ rr, getSurf (markAsModified (tickOp s3).1 nsid
        (((getSurf s3 cur).map (·.modified)).getD false) (tickOp s3).2) nsid =
      some rr ∧ rr.registered = true
    rw [getSurf_markAsModified_self, getSurf_tickOp, hrr]
    exact ⟨_, rfl, hrreg⟩
  · exact storeWF_markAsModified nsid _ _ (storeWF_tickOp hst3)

/-- `ManageStructuralMatch` hands back a registered surface: the hit paths
return the (registered) current surface, and the mirage path rebuilds. -/
theorem manageStructuralMatch_registered (env : Env) (s : CacheState)
    (cur : Nat) (p : SurfaceParams) (ir : Bool) (hst : storeWF s)
    (d : SurfaceData) (hcur : getSurf s cur = some d)
    (hregd : d.registered = true) (htr : env.gpuToCache d.gpu_addr ≠ 0)
    (hcpu : (env.gpuToCpu d.gpu_addr).isSome = true) :
    regResult (manageStructuralMatch env s cur p ir) := by
  unfold manageStructuralMatch
  simp only [hcur]
  split
  · split
    · exact ⟨rfl, d, hcur, hregd⟩
    · exact ⟨rfl, d, hcur, hregd⟩
  · split
    · split
      · exact ⟨rfl, d, hcur, hregd⟩
      · exact ⟨rfl, d, hcur, hregd⟩
    · exact (rebuildSurface_registered env s cur p ir hst d hcur hregd htr
        hcpu).1

/-- The single-overlap step of `GetSurface` hands back a registered
surface on every branch. -/
theorem getSurfaceSingle_registered (env : Env) (s1 : CacheState)
    (g csize cur : Nat) (p : SurfaceParams) (pc ir : Bool)
    (hst : storeWF s1) (d : SurfaceData) (hcur : getSurf s1 cur = some d)
    (hregd : d.registered = true)
    (htrg : env.gpuToCache g ≠ 0) (hcpug : (env.gpuToCpu g).isSome = true)
    (htrc : env.gpuToCache d.gpu_addr ≠ 0)
    (hcpuc : (env.gpuToCpu d.gpu_addr).isSome = true) :
    regResult (getSurfaceSingle env s1 g csize cur p pc ir) := by
  unfold getSurfaceSingle
  simp only [hcur]
  split
  · split
    · rcases hT : tryReconstructSurface env s1 [cur] p g with ⟨s2, ev, r?⟩
      simp only [hT]
      cases r? with
      | some r =>
        obtain ⟨nsid, v⟩ := r
        have h2 := tryReconstructSurface_registered env s1 [cur] p g hst
          (by intro sid hsid
              rcases List.mem_singleton.1 hsid with rfl
              rw [hcur]
              simp [hregd])
          htrg hcpug nsid v (by rw [hT])
        rw [hT] at h2
        exact ⟨h2.1, h2.2⟩
      | none =>
        have hst2 : storeWF s2 := by
          have := storeWF_tryReconstructSurface env s1 [cur] p g hst
          rw [hT] at this
          exact this
        rcases hrc : recycleSurface env s2 [cur] p g pc .FullMatch
          with ⟨s3, ev2, r⟩
        simp only [hrc]
        have hB := recycleSurface_registered env s2 [cur] p g pc .FullMatch
          hst2 htrg hcpug
        rw [hrc] at hB
        exact ⟨hB.1, hB.2⟩
    · exact recycleSurface_registered env s1 [cur] p g pc .FullMatch hst
        htrg hcpug
  · split
    · split
      · rcases hR : rebuildSurface env s1 cur
          { d.params with
            width := env.convertWidth d.params.width d.params.pixel_format
              p.pixel_format
            height := env.convertHeight d.params.height d.params.pixel_format
              p.pixel_format
            pixel_format := p.pixel_format } ir with ⟨s2, ev, pr⟩
        have hD := rebuildSurface_registered env s1 cur
          { d.params with
            width := env.convertWidth d.params.width d.params.pixel_format
              p.pixel_format
            height := env.convertHeight d.params.height d.params.pixel_format
              p.pixel_format
            pixel_format := p.pixel_format } ir hst d hcur hregd htrc hcpuc
        rw [hR] at hD
        simp only [hR]
        split
        · exact ⟨rfl, hD.1.2⟩
        · rcases hrc : recycleSurface env s2 [cur] p g pc .FullMatch
            with ⟨s3, ev2, r⟩
          simp only [hrc]
          have hB := recycleSurface_registered env s2 [cur] p g pc .FullMatch
            hD.2 htrg hcpug
          rw [hrc] at hB
          exact ⟨hB.1, hB.2⟩
      · exact ⟨rfl, d, hcur, hregd⟩
    · split
      · exact recycleSurface_registered env s1 [cur] p g pc .FullMatch hst
          htrg hcpug
      · split
        · exact (rebuildSurface_registered env s1 cur p ir hst d hcur hregd
            htrc hcpuc).1
        · exact recycleSurface_registered env s1 [cur] p g pc .FullMatch hst
            htrg hcpug

theorem pickPass_origin (a e : Nat) (bucket : List Nat) :
    ∀ (s : CacheState) (acc : List Nat) (sid : Nat),
    sid ∈ (pickPass a e s bucket acc).2 → sid ∈ acc ∨ sid ∈ bucket := by
  induction bucket with
  | nil => exact fun s acc sid h => Or.inl h
  | cons y rest ih =>
    intro s acc sid h
    simp only [pickPass] at h
    cases hY : getSurf s y with
    | none =>
      simp only [hY] at h
      rcases ih s acc sid h with h1 | h2
      · exact Or.inl h1
      · exact Or.inr (List.mem_cons_of_mem _ h2)
    | some d =>
      simp only [hY] at h
      by_cases hc : (!d.picked && d.overlapsRange a e) = true
      · rw [if_pos hc] at h
        rcases ih _ _ sid h with h1 | h2
        · rcases List.mem_append.1 h1 with ha | hb
          · exact Or.inl ha
          · rcases List.mem_singleton.1 hb with rfl
            exact Or.inr (List.mem_cons_self _ _)
        · exact Or.inr (List.mem_cons_of_mem _ h2)
      · rw [if_neg hc] at h
        rcases ih s acc sid h with h1 | h2
        · exact Or.inl h1
        · exact Or.inr (List.mem_cons_of_mem _ h2)

theorem scanPages_origin (a e : Nat) (pages : List Nat) :
    ∀ (s : CacheState) (acc : List Nat) (sid : Nat),
    sid ∈ (scanPages a e s pages acc).2 →
    sid ∈ acc ∨ ∃ page, sid ∈ (lookupA s.registry page).getD [] := by
  induction pages with
  | nil => exact fun s acc sid h => Or.inl h
  | cons page rest ih =>
    intro s acc sid h
    rw [scanPages_cons] at h
    have hreg : (pickPass a e s ((lookupA s.registry page).getD [])
        acc).1.registry = s.registry := by
      rcases pickPass_state_eq a e ((lookupA s.registry page).getD []) s acc
        with ⟨sf, hs'⟩
      rw [hs']
    rcases ih _ _ sid h with h1 | ⟨pg, hpg⟩
    · rcases pickPass_origin a e _ s acc sid h1 with ha | hb
      · exact Or.inl ha
      · exact Or.inr ⟨page, hb⟩
    · rw [hreg] at hpg
      exact Or.inr ⟨pg, hpg⟩

/-- Every surface collected by `GetSurfacesInRegion` came out of some
registry page bucket. -/
theorem getSurfacesInRegion_origin (s : CacheState) (addr size sid : Nat)
    (h : sid ∈ (getSurfacesInRegion s addr size).2) :
    ∃ page, sid ∈ (lookupA s.registry page).getD [] := by
  by_cases hsz : size = 0
  · unfold getSurfacesInRegion at h
    rw [if_pos hsz] at h
    cases h
  · rw [getSurfacesInRegion_spec s addr size hsz] at h
    rcases scanPages_origin addr (addr + size)
      (pageList (pageOf addr) (pageOf (addr + size - 1))) s [] sid h
      with h1 | h2
    · cases h1
    · exact h2

/-- In a cache whose registry only indexes live registered surfaces whose
addresses translate, every overlap collected by `GetSurfacesInRegion` is
still live and registered afterwards, with a translating GPU address. -/
theorem getSurfacesInRegion_overlap_facts (env : Env) (s : CacheState)
    (addr size : Nat) (hreg : registryWF s) (htrans : transWF env s) :
    ∀ sid ∈ (getSurfacesInRegion s addr size).2,
    ∃ d1, getSurf (getSurfacesInRegion s addr size).1 sid = some d1 ∧
      d1.registered = true ∧ env.gpuToCache d1.gpu_addr ≠ 0 ∧
      (env.gpuToCpu d1.gpu_addr).isSome = true := by
  intro sid hsid
  rcases getSurfacesInRegion_origin s addr size sid hsid with ⟨page, hpage⟩
  cases hl : lookupA s.registry page with
  | none =>
    rw [hl] at hpage
    cases hpage
  | some bucket =>
    rw [hl] at hpage
    have hr0 := hreg _ (lookupA_mem hl) sid hpage
    rcases Option.map_eq_some'.1 hr0 with ⟨d0, hd0, hd0r⟩
    have htr0 := htrans _ (lookupA_mem hd0) hd0r
    have hstrip := getSurfacesInRegion_strip s addr size sid
    rw [hd0] at hstrip
    rcases Option.map_eq_some'.1 hstrip with ⟨d1, hd1, hstripeq⟩
    have hregeq : d1.registered = d0.registered := by
      simpa [stripPicked] using congrArg SurfaceData.registered hstripeq
    have haddreq : d1.gpu_addr = d0.gpu_addr := by
      simpa [stripPicked] using congrArg SurfaceData.gpu_addr hstripeq
    refine ⟨d1, hd1, ?_, ?_, ?_⟩
    · rw [hregeq]
      exact hd0r
    · rw [haddreq]
      exact htr0.1
    · rw [haddreq]
      exact htr0.2

/-- Steps 2-4 of `GetSurface` hand back a registered surface on every
branch, given a sane cache and a requested address that translates. -/
theorem getSurfaceStep2_registered (env : Env) (s : CacheState)
    (g ca : Nat) (p : SurfaceParams) (pc ir : Bool) (hst : storeWF s)
    (hreg : registryWF s) (htrans : transWF env s)
    (htrg : env.gpuToCache g ≠ 0) (hcpug : (env.gpuToCpu g).isSome = true) :
    regResult (getSurfaceStep2 env s g ca p pc ir) := by
  unfold getSurfaceStep2
  rcases hscan : getSurfacesInRegion s ca (env.guestSize p)
    with ⟨s1, overlaps⟩
  simp only [hscan]
  have hst1 : storeWF s1 := by
    have := getSurfacesInRegion_storeWF s ca (env.guestSize p) hst
    rw [hscan] at this
    exact this
  have hfacts : ∀ sid ∈ overlaps, ∃ d1, getSurf s1 sid = some d1 ∧
      d1.registered = true ∧ env.gpuToCache d1.gpu_addr ≠ 0 ∧
      (env.gpuToCpu d1.gpu_addr).isSome = true := by
    intro sid hsid
    have h0 := getSurfacesInRegion_overlap_facts env s ca (env.guestSize p)
      hreg htrans sid (by rw [hscan]; exact hsid)
    rw [hscan] at h0
    exact h0
  cases overlaps with
  | nil => exact initializeSurface_registered env s1 g p pc hst1 htrg hcpug
  | cons o1 orest =>
    cases hf : (o1 :: orest).find?
        (fun sid => env.matchesTopology (paramsOf s1 sid) p ≠ .FullMatch) with
    | some bad =>
      simp only [hf]
      exact recycleSurface_registered env s1 (o1 :: orest) p g pc _ hst1
        htrg hcpug
    | none =>
      simp only [hf]
      cases orest with
      | nil =>
        obtain ⟨d1, hd1, hd1r, hd1t, hd1c⟩ :=
          hfacts o1 (List.mem_singleton_self o1)
        exact getSurfaceSingle_registered env s1 g (env.guestSize p) o1 p
          pc ir hst1 d1 hd1 hd1r htrg hcpug hd1t hd1c
      | cons o2 orest2 =>
        rcases hT : tryReconstructSurface env s1 (o1 :: o2 :: orest2) p g
          with ⟨s2, ev, r?⟩
        simp only [hT]
        cases r? with
        | some r =>
          obtain ⟨nsid, v⟩ := r
          have h2 := tryReconstructSurface_registered env s1
            (o1 :: o2 :: orest2) p g hst1
            (by intro sid hsid
                obtain ⟨dd, hdd, hddr, h3, h4⟩ := hfacts sid hsid
                rw [hdd]
                simp [hddr])
            htrg hcpug nsid v (by rw [hT])
          rw [hT] at h2
          exact ⟨h2.1, h2.2⟩
        | none =>
          have hst2 : storeWF s2 := by
            have := storeWF_tryReconstructSurface env s1 (o1 :: o2 :: orest2)
              p g hst1
            rw [hT] at this
            exact this
          rcases hrc : recycleSurface env s2 (o1 :: o2 :: orest2) p g pc
            .FullMatch with ⟨s3, ev2, r⟩
          simp only [hrc]
          have hB := recycleSurface_registered env s2 (o1 :: o2 :: orest2)
            p g pc .FullMatch hst2 htrg hcpug
          rw [hrc] at hB
          exact ⟨hB.1, hB.2⟩

/-- C1 (amended): `GetSurface` always returns a `(Surface, View)` pair with
the View referencing the returned Surface, but the registered guarantee
holds only under the precondition — absent from the claim — that the
requested GPU address translates to a valid (non-null) cache pointer and
to a CPU address: then, in a well-formed cache (store ids fresh, L1 and
registry buckets holding live registered surfaces, registered surfaces'
GPU addresses translating), the returned Surface is registered when
`GetSurface` returns.  When translation fails, the returned surface is a
fresh degenerate one that is *not* registered (see the counterexample). -/
theorem getSurface_amended (env : Env) (s : CacheState) (g : Nat)
    (p : SurfaceParams) (pc ir : Bool) (hst : storeWF s) (hl1 : l1WF s)
    (hreg : registryWF s) (htrans : transWF env s)
    (htr : env.gpuToCache g ≠ 0) (hcpu : (env.gpuToCpu g).isSome = true) :
    (getSurface env s g p pc ir).2.2.2.sid =
      (getSurface env s g p pc ir).2.2.1 ∧
    ∃ r, getSurf (getSurface env s g p pc ir).1
        (getSurface env s g p pc ir).2.2.1 = some r ∧
      r.registered = true := by
  show regResult (getSurface env s g p pc ir)
  unfold getSurface
  simp only [if_neg htr]
  cases hl : lookupA s.l1_cache (env.gpuToCache g) with
  | none =>
    simp only [hl]
    exact getSurfaceStep2_registered env s g (env.gpuToCache g) p pc ir
      hst hreg htrans htr hcpu
  | some cur =>
    simp only [hl]
    have hr0 := hl1 _ (lookupA_mem hl)
    rcases Option.map_eq_some'.1 hr0 with ⟨d, hd, hdr⟩
    obtain ⟨hdt, hdc⟩ := htrans _ (lookupA_mem hd) hdr
    split
    · exact recycleSurface_registered env s [cur] p g pc _ hst htr hcpu
    · split
      · split
        · exact manageStructuralMatch_registered env s cur p ir hst d hd
            hdr hdt hdc
        · exact (rebuildSurface_registered env s cur p ir hst d hd hdr
            hdt hdc).1
      · exact getSurfaceStep2_registered env s g (env.gpuToCache g) p pc
          ir hst hreg htrans htr hcpu

/-- C1 (witness): the amended theorem applied to the concrete one-surface
cache `stC4` at the translating address 4096 (an L1 hit on the registered
surface 1). -/
theorem getSurface_amended_witness :
    (getSurface testEnv stC4 4096 tiledParams true false).2.2.2.sid =
      (getSurface testEnv stC4 4096 tiledParams true false).2.2.1 ∧
    ∃ r, getSurf (getSurface testEnv stC4 4096 tiledParams true false).1
        (getSurface testEnv stC4 4096 tiledParams true false).2.2.1 =
      some r ∧ r.registered = true :=
  getSurface_amended testEnv stC4 4096 tiledParams true false
    (by unfold storeWF; decide) (by unfold l1WF; decide)
    (by unfold registryWF; decide) (by unfold transWF; decide)
    (by decide) (by decide)

/-! ### The indexing invariant (claim C7) -/

theorem lookupA_of_mem_nodup {κ α : Type} [DecidableEq κ]
    {l : List (κ × α)} (hnd : (l.map Prod.fst).Nodup) {pr : κ × α}
    (h : pr ∈ l) : lookupA l pr.1 = some pr.2 := by
  induction l with
  | nil => cases h
  | cons hd tl ih =>
    obtain ⟨k₀, v₀⟩ := hd
    rcases List.mem_cons.1 h with h1 | h2
    · subst h1
      simp [lookupA]
    · have hne : k₀ ≠ pr.1 := by
        intro he
        have : pr.1 ∈ tl.map Prod.fst := List.mem_map_of_mem _ h2
        rw [← he] at this
        exact (List.nodup_cons.1 hnd).1 this
      simp only [lookupA, hne, reduceIte]
      exact ih (List.nodup_cons.1 hnd).2 h2

theorem mem_updateA_ne {κ α : Type} [DecidableEq κ]
    {l : List (κ × α)} {k : κ} {f : α → α} {pr : κ × α}
    (h : pr ∈ updateA l k f) (hne : pr.1 ≠ k) : pr ∈ l := by
  induction l with
  | nil => cases h
  | cons hd tl ih =>
    obtain ⟨k₀, v₀⟩ := hd
    by_cases hk : k₀ = k
    · subst hk
      simp only [updateA, reduceIte] at h
      rcases List.mem_cons.1 h with h1 | h2
      · exact absurd (congrArg Prod.fst h1) hne
      · exact List.mem_cons_of_mem _ h2
    · simp only [updateA, hk, reduceIte] at h
      rcases List.mem_cons.1 h with h1 | h2
      · exact h1 ▸ List.mem_cons_self _ _
      · exact List.mem_cons_of_mem _ (ih h2)

theorem lookupA_eraseA_ne {κ α : Type} [DecidableEq κ]
    (l : List (κ × α)) {k k' : κ} (h : k' ≠ k) :
    lookupA (eraseA l k) k' = lookupA l k' := by
  induction l with
  | nil => rfl
  | cons hd tl ih =>
    obtain ⟨k₀, v₀⟩ := hd
    by_cases hk : k₀ = k
    · subst hk
      simp only [eraseA]
      rw [if_pos trivial]
      simp only [lookupA]
      rw [if_neg fun he => h he.symm]
    · simp only [eraseA]
      rw [if_neg hk]
      simp only [lookupA]
      by_cases hk' : k₀ = k'
      · rw [if_pos hk', if_pos hk']
      · rw [if_neg hk', if_neg hk']
        exact ih

theorem lookupA_eraseA_self_nodup {κ α : Type} [DecidableEq κ]
    {l : List (κ × α)} (hnd : (l.map Prod.fst).Nodup) (k : κ) :
    lookupA (eraseA l k) k = none := by
  induction l with
  | nil => rfl
  | cons hd tl ih =>
    obtain ⟨k₀, v₀⟩ := hd
    by_cases hk : k₀ = k
    · subst hk
      simp only [eraseA, reduceIte]
      refine lookupA_eq_none_of fun pr hpr => ?_
      intro he
      have : pr.1 ∈ tl.map Prod.fst := List.mem_map_of_mem _ hpr
      rw [he] at this
      exact (List.nodup_cons.1 hnd).1 this
    · simp only [eraseA, hk, reduceIte, lookupA]
      exact ih (List.nodup_cons.1 hnd).2

theorem mem_eraseFirst_ne {l : List Nat} {x y : Nat} (h : x ≠ y) :
    x ∈ eraseFirst l y ↔ x ∈ l := by
  induction l with
  | nil => simp [eraseFirst]
  | cons a rest ih =>
    by_cases ha : a = y
    · subst ha
      simp only [eraseFirst, reduceIte]
      constructor
      · exact fun hm => List.mem_cons_of_mem _ hm
      · intro hm
        rcases List.mem_cons.1 hm with h1 | h2
        · exact absurd h1 h
        · exact h2
    · simp only [eraseFirst, ha, reduceIte]
      constructor
      · intro hm
        rcases List.mem_cons.1 hm with h1 | h2
        · exact h1 ▸ List.mem_cons_self _ _
        · exact List.mem_cons_of_mem _ (ih.1 h2)
      · intro hm
        rcases List.mem_cons.1 hm with h1 | h2
        · exact h1 ▸ List.mem_cons_self _ _
        · exact List.mem_cons_of_mem _ (ih.2 h2)

theorem regfold_step_mono (r : List (Nat × List Nat)) (p q sid x : Nat)
    (h : x ∈ (lookupA r q).getD []) :
    x ∈ (lookupA (insertA r p ((lookupA r p).getD [] ++ [sid])) q).getD [] := by
  by_cases hq : q = p
  · subst hq
    rw [lookupA_insertA_self]
    exact List.mem_append_left _ h
  · rw [lookupA_insertA_ne _ _ hq]
    exact h

theorem regfold_mono (pages : List Nat) (sid : Nat) :
    ∀ (r : List (Nat × List Nat)) (q x : Nat),
    x ∈ (lookupA r q).getD [] →
    x ∈ (lookupA (pages.foldl
      (fun r p => insertA r p ((lookupA r p).getD [] ++ [sid])) r) q).getD [] := by
  induction pages with
  | nil => exact fun r q x h => h
  | cons p rest ih =>
    intro r q x h
    simp only [List.foldl_cons]
    exact ih _ q x (regfold_step_mono r p q sid x h)

theorem regfold_self (pages : List Nat) (sid : Nat) :
    ∀ (r : List (Nat × List Nat)), ∀ page ∈ pages,
    sid ∈ (lookupA (pages.foldl
      (fun r p => insertA r p ((lookupA r p).getD [] ++ [sid])) r) page).getD [] := by
  induction pages with
  | nil => exact fun r page hpage => absurd hpage (List.not_mem_nil page)
  | cons p rest ih =>
    intro r page hpage
    simp only [List.foldl_cons]
    rcases List.mem_cons.1 hpage with h1 | h2
    · subst h1
      refine regfold_mono rest sid _ page sid ?_
      rw [lookupA_insertA_self]
      exact List.mem_append_right _ (List.mem_singleton_self sid)
    · exact ih _ page h2

theorem regfold_origin (pages : List Nat) (sid : Nat) :
    ∀ (r : List (Nat × List Nat)) (q x : Nat), x ≠ sid →
    x ∈ (lookupA (pages.foldl
      (fun r p => insertA r p ((lookupA r p).getD [] ++ [sid])) r) q).getD [] →
    x ∈ (lookupA r q).getD [] := by
  induction pages with
  | nil => exact fun r q x _ h => h
  | cons p rest ih =>
    intro r q x hne h
    simp only [List.foldl_cons] at h
    have h1 := ih _ q x hne h
    by_cases hq : q = p
    · subst hq
      rw [lookupA_insertA_self] at h1
      rcases List.mem_append.1 h1 with ha | hb
      · exact ha
      · exact absurd (List.mem_singleton.1 hb) hne
    · rw [lookupA_insertA_ne _ _ hq] at h1
      exact h1

theorem unregfold_iff (pages : List Nat) (sid : Nat) :
    ∀ (r : List (Nat × List Nat)) (q x : Nat), x ≠ sid →
    (x ∈ (lookupA (pages.foldl
      (fun r p => insertA r p (eraseFirst ((lookupA r p).getD []) sid)) r)
        q).getD [] ↔
     x ∈ (lookupA r q).getD []) := by
  induction pages with
  | nil => exact fun r q x _ => Iff.rfl
  | cons p rest ih =>
    intro r q x hne
    simp only [List.foldl_cons]
    rw [ih _ q x hne]
    by_cases hq : q = p
    · subst hq
      rw [lookupA_insertA_self]
      exact mem_eraseFirst_ne hne
    · rw [lookupA_insertA_ne _ _ hq]

theorem setSurf_surfaces (s : CacheState) (sid : Nat)
    (f : SurfaceData → SurfaceData) :
    (setSurf s sid f).surfaces = updateA s.surfaces sid f := rfl

/-- `Register` (when it proceeds) establishes the indexing invariant for
the surface it registers and preserves it for every other surface,
provided no distinct registered surface already starts at the cache
address being claimed: `insertA` would replace that surface's unique L1
entry (see the counterexample). -/
theorem invC7_register (env : Env) (s : CacheState) (sid : Nat)
    (d : SurfaceData) (hinv : invC7 s)
    (hsnd : (s.surfaces.map Prod.fst).Nodup)
    (hd : getSurf s sid = some d)
    (hdist : ∀ pr ∈ s.surfaces, pr.1 ≠ sid → pr.2.registered = true →
      pr.2.cache_addr ≠ env.gpuToCache d.gpu_addr) :
    invC7 (register env s sid).1 := by
  cases hcpu : env.gpuToCpu d.gpu_addr with
  | none =>
    simp only [register, hd, hcpu]
    exact hinv
  | some cpu =>
    simp only [register, hd, hcpu]
    by_cases hz : env.gpuToCache d.gpu_addr = 0
    · rw [if_pos hz]
      exact hinv
    · rw [if_neg hz]
      have hgs1 : getSurf (setSurf s sid fun d' =>
          { d' with
            continuous := env.isContinuous d.gpu_addr d.size_in_bytes
            cache_addr := env.gpuToCache d.gpu_addr
            cpu_addr := cpu }) sid =
          some { d with
            continuous := env.isContinuous d.gpu_addr d.size_in_bytes
            cache_addr := env.gpuToCache d.gpu_addr
            cpu_addr := cpu } := by
        rw [getSurf_setSurf_self, hd]
        rfl
      have hd' : lookupA s.surfaces sid = some d := hd
      simp only [registerInnerCache, hgs1, setSurf_l1, setSurf_registry]
      intro pr hpr
      simp only [setSurf_surfaces] at hpr
      simp only [setSurf_l1, setSurf_registry]
      by_cases hx : pr.1 = sid
      · have hnd' : ((updateA (updateA s.surfaces sid fun d' =>
            { d' with
              continuous := env.isContinuous d.gpu_addr d.size_in_bytes
              cache_addr := env.gpuToCache d.gpu_addr
              cpu_addr := cpu }) sid fun d' =>
            { d' with registered := true }).map Prod.fst).Nodup := by
          rw [keys_updateA, keys_updateA]
          exact hsnd
        have hlook := lookupA_of_mem_nodup hnd' hpr
        rw [hx, lookupA_updateA_self, lookupA_updateA_self, hd'] at hlook
        simp only [Option.map_some'] at hlook
        have hpr2 : pr.2 = { d with
            continuous := env.isContinuous d.gpu_addr d.size_in_bytes
            cache_addr := env.gpuToCache d.gpu_addr
            cpu_addr := cpu
            registered := true } := (Option.some_inj.1 hlook).symm
        rw [hpr2, hx]
        constructor
        · intro _
          constructor
          · exact lookupA_insertA_self _ _ _
          · intro page hpage
            exact regfold_self _ sid _ page hpage
        · intro _
          rfl
      · have hmem0 : pr ∈ s.surfaces := mem_updateA_ne (mem_updateA_ne hpr hx) hx
        have hiff := hinv pr hmem0
        constructor
        · intro hregtrue
          have hcl := hiff.1 hregtrue
          have hca : pr.2.cache_addr ≠ env.gpuToCache d.gpu_addr :=
            hdist pr hmem0 hx hregtrue
          refine ⟨?_, ?_⟩
          · rw [lookupA_insertA_ne _ _ hca]
            exact hcl.1
          · intro page hpage
            exact regfold_mono _ sid _ page pr.1 (hcl.2 page hpage)
        · intro hcl
          by_cases hca : pr.2.cache_addr = env.gpuToCache d.gpu_addr
          · exfalso
            have h1 := hcl.1
            rw [hca, lookupA_insertA_self] at h1
            exact hx (Option.some_inj.1 h1).symm
          · refine hiff.2 ⟨?_, ?_⟩
            · have h1 := hcl.1
              rw [lookupA_insertA_ne _ _ hca] at h1
              exact h1
            · intro page hpage
              exact regfold_origin _ sid _ page pr.1 hx (hcl.2 page hpage)

/-- `Unregister` preserves the indexing invariant *when the surface being
unregistered is registered*: the guarded no-op trivially, and an executing
unregister erases exactly the surface's own L1 entry and bucket
occurrences (the invariant makes that entry uniquely its own).  The
hypothesis `d.registered = true` is load-bearing: unregistering a stale
unregistered surface whose leftover `cache_addr` aliases a registered
surface's starting address erases that surface's entry instead — see the
second half of the counterexample. -/
theorem invC7_unregister (s : CacheState) (sid : Nat) (d : SurfaceData)
    (hinv : invC7 s) (hsnd : (s.surfaces.map Prod.fst).Nodup)
    (hl1nd : (s.l1_cache.map Prod.fst).Nodup)
    (hd : getSurf s sid = some d) (hdreg : d.registered = true) :
    invC7 (unregister s sid).1 := by
  simp only [unregister, hd]
  by_cases hg : (s.guard_render_targets && d.is_protected) = true
  · rw [if_pos hg]
    exact hinv
  · rw [if_neg hg]
    have hd' : lookupA s.surfaces sid = some d := hd
    simp only [unregisterInnerCache, hd, reserveSurface, setSurf_l1,
      setSurf_registry]
    intro pr hpr
    simp only [setSurf_surfaces] at hpr
    simp only [setSurf_l1, setSurf_registry]
    by_cases hx : pr.1 = sid
    · have hnd' : ((updateA s.surfaces sid fun d' =>
          { d' with registered := false }).map Prod.fst).Nodup := by
        rw [keys_updateA]
        exact hsnd
      have hlook := lookupA_of_mem_nodup hnd' hpr
      rw [hx, lookupA_updateA_self, hd'] at hlook
      simp only [Option.map_some'] at hlook
      have hpr2 : pr.2 = { d with registered := false } :=
        (Option.some_inj.1 hlook).symm
      rw [hpr2, hx]
      constructor
      · intro hcontra
        exact Bool.noConfusion hcontra
      · intro hcl
        exfalso
        have h1 := hcl.1
        rw [show ({ d with registered := false } :
            SurfaceData).cache_addr = d.cache_addr from rfl,
          lookupA_eraseA_self_nodup hl1nd] at h1
        cases h1
    · have hmem0 : pr ∈ s.surfaces := mem_updateA_ne hpr hx
      have hiff := hinv pr hmem0
      constructor
      · intro hregtrue
        have hcl := hiff.1 hregtrue
        have hdcl := (hinv (sid, d) (lookupA_mem hd)).1 hdreg
        have hca : pr.2.cache_addr ≠ d.cache_addr := by
          intro he
          have h1 := hcl.1
          rw [he, hdcl.1] at h1
          exact hx (Option.some_inj.1 h1).symm
        refine ⟨?_, ?_⟩
        · rw [lookupA_eraseA_ne _ hca]
          exact hcl.1
        · intro page hpage
          exact (unregfold_iff _ sid _ page pr.1 hx).2 (hcl.2 page hpage)
      · intro hcl
        by_cases hca : pr.2.cache_addr = d.cache_addr
        · exfalso
          have h1 := hcl.1
          rw [hca, lookupA_eraseA_self_nodup hl1nd] at h1
          cases h1
        · refine hiff.2 ⟨?_, ?_⟩
          · have h1 := hcl.1
            rw [lookupA_eraseA_ne _ hca] at h1
            exact h1
          · intro page hpage
            exact (unregfold_iff _ sid _ page pr.1 hx).1 (hcl.2 page hpage)

/-- C7 (counterexample): the indexing invariant is *not* preserved by every
cache operation — both `Register` and `Unregister` can break it.
(1) In render-target-guard mode a protected surface's `Unregister` is a
no-op (claim C6's guard), so `RecycleSurface` can go on to `Register` a
fresh surface starting at the same cache address; the `insertA` into the
L1 map replaces the protected surface's unique entry, leaving surface 1
of `stC7` registered but no longer indexed under its starting cache
address.  (2) `Unregister` on a live but *unregistered* surface whose
leftover `cache_addr` aliases a registered surface's starting address
(reachable via the mirage path's double-`Unregister`: `RebuildSurface`
unregisters the old surface, registers its replacement at the same
address, and the failure branch's `RecycleSurface` unregisters the old
surface again) erases the registered surface's L1 entry: in `stC7c` the
stale surface 1 aliases the registered surface 2, and unregistering 1
strips 2's entry while 2 stays registered. -/
theorem invC7_claimC7_counterexample :
    (invC7 stC7 ∧ ¬invC7 (register testEnv stC7 2).1) ∧
    (invC7 stC7c ∧ ¬invC7 (unregister stC7c 1).1) := by
  unfold invC7
  decide

/-- C7 (amended): `Register` establishes the indexing invariant for the
surface it registers and preserves it for every other surface *provided*
no distinct registered surface already starts at the cache address being
claimed (without that side condition the L1 insert evicts the other
surface's entry — see the counterexample, which realises exactly this
under the render-target guard); `Unregister` preserves the invariant
*provided* the surface it is called on is registered (with duplicate-free
surface and L1 key lists) — without that hypothesis an unregister of a
stale aliasing surface erases a registered surface's L1 entry, as the
second half of the counterexample shows. -/
theorem invC7_amended :
    (∀ (env : Env) (s : CacheState) (sid : Nat) (d : SurfaceData),
      invC7 s → (s.surfaces.map Prod.fst).Nodup →
      getSurf s sid = some d →
      (∀ pr ∈ s.surfaces, pr.1 ≠ sid → pr.2.registered = true →
        pr.2.cache_addr ≠ env.gpuToCache d.gpu_addr) →
      invC7 (register env s sid).1) ∧
    (∀ (s : CacheState) (sid : Nat) (d : SurfaceData),
      invC7 s → (s.surfaces.map Prod.fst).Nodup →
      (s.l1_cache.map Prod.fst).Nodup →
      getSurf s sid = some d → d.registered = true →
      invC7 (unregister s sid).1) :=
  ⟨fun env s sid d h1 h2 h3 h4 => invC7_register env s sid d h1 h2 h3 h4,
   fun s sid d h1 h2 h3 h4 h5 => invC7_unregister s sid d h1 h2 h3 h4 h5⟩

/-- C7 (witness): the amended theorem applied to a well-separated
registration (`stC7b`, fresh surface at the disjoint address 8192) and to
unregistering the indexed surface of `stC4`. -/
theorem invC7_amended_witness :
    invC7 (register testEnv stC7b 2).1 ∧ invC7 (unregister stC4 1).1 :=
  ⟨invC7_amended.1 testEnv stC7b 2 surfD7b (by unfold invC7; decide)
      (by decide) (by decide) (by decide),
   invC7_amended.2 stC4 1 surfC4 (by unfold invC7; decide) (by decide)
      (by decide) (by decide) (by decide)⟩

end TexCache
